import Mathlib

/-!
Verification development for the PEC footfall-prediction pipeline.

The definitions below are a shallow embedding of the feature-engineering
and prediction code of the repository:

* `FeatureEngineer._add_lag_features`, `_add_temporal_features`,
  `_add_geographic_features`, `_add_interaction_features` and
  `_validate_and_fix_columns` from `src/feature_engineering.py`;
* `PECPredictor._build_features`, `_calculate_lag_features`,
  `_encode_categorical`, `predict_single_day` and `compare_pincodes`
  from `src/predict.py`;
* `PECModelTrainer._prepare_data` from `src/train_model.py`.

Tables are lists of records, pandas column operations become list
operations, and numeric cell values are rationals (row counts and label
codes are naturals).  NaN cells produced by `shift`/`rolling` are
`Option.none`; the sample standard deviation, whose value is a real
square root, is the only non-rational feature value.
-/

/-- Arithmetic mean of a list of rationals, as computed by pandas
`Series.mean` (division by zero only arises on empty lists, which every
use below guards against). -/
def meanQ (l : List ℚ) : ℚ := l.sum / l.length

/-- Sample variance with `ddof = 1` (the pandas default for `std`);
meaningful only for lists of length at least 2. -/
def varQ (l : List ℚ) : ℚ :=
  (l.map (fun x => (x - meanQ l) ^ 2)).sum / ((l.length : ℚ) - 1)

/-- pandas `Series.max` over a nonempty list (0 on the empty list, which
every use below guards against). -/
def maxQ : List ℚ → ℚ
  | [] => 0
  | x :: xs => xs.foldl max x

/-- pandas `Series.min` over a nonempty list. -/
def minQ : List ℚ → ℚ
  | [] => 0
  | x :: xs => xs.foldl min x

/-- pandas `DataFrame.tail(n)`: the last `n` elements. -/
def tailN (n : ℕ) (l : List α) : List α := l.drop (l.length - n)

theorem tailN_eq_self {n : ℕ} {l : List α} (h : l.length ≤ n) : tailN n l = l := by
  simp [tailN, Nat.sub_eq_zero_of_le h]

/-- Helper for `uniqueList`: keep the first occurrence of each value not
already seen. -/
def uniqueAux (seen : List String) : List String → List String
  | [] => []
  | x :: xs => if x ∈ seen then uniqueAux seen xs else x :: uniqueAux (x :: seen) xs

/-- pandas `Series.unique`: the distinct values of a column in order of
first appearance. -/
def uniqueList (l : List String) : List String := uniqueAux [] l

theorem mem_uniqueAux {v : String} :
    ∀ (l seen : List String), v ∈ uniqueAux seen l ↔ v ∈ l ∧ v ∉ seen := by
  intro l
  induction l with
  | nil => intro seen; simp [uniqueAux]
  | cons x xs ih =>
    intro seen
    by_cases hx : x ∈ seen
    · rw [uniqueAux, if_pos hx, ih]
      constructor
      · rintro ⟨h1, h2⟩; exact ⟨List.mem_cons.mpr (Or.inr h1), h2⟩
      · rintro ⟨h1, h2⟩
        rcases List.mem_cons.mp h1 with h1 | h1
        · exact absurd (h1 ▸ hx) h2
        · exact ⟨h1, h2⟩
    · rw [uniqueAux, if_neg hx]
      constructor
      · intro h
        rcases List.mem_cons.mp h with h | h
        · exact ⟨List.mem_cons.mpr (Or.inl h), h ▸ hx⟩
        · rcases (ih (x :: seen)).mp h with ⟨h1, h2⟩
          exact ⟨List.mem_cons.mpr (Or.inr h1), fun hv => h2 (List.mem_cons.mpr (Or.inr hv))⟩
      · rintro ⟨h1, h2⟩
        rcases List.mem_cons.mp h1 with h1 | h1
        · exact List.mem_cons.mpr (Or.inl h1)
        · by_cases hvx : v = x
          · exact List.mem_cons.mpr (Or.inl hvx)
          · exact List.mem_cons.mpr (Or.inr ((ih (x :: seen)).mpr
              ⟨h1, fun hv => (List.mem_cons.mp hv).elim hvx h2⟩))

theorem mem_uniqueList {v : String} {l : List String} : v ∈ uniqueList l ↔ v ∈ l := by
  rw [uniqueList, mem_uniqueAux]; simp

/-- `pd.factorize(column)[0]` (feature_engineering.py lines 304 and 307):
the integer code of each entry is its position among the distinct values
in order of first appearance. -/
def factorize (l : List String) : List ℕ :=
  l.map (fun v => (uniqueList l).indexOf v)

/-- `PECPredictor._encode_categorical` (predict.py lines 324-329): look
`value` up in `unique()` of the stored column; unseen values map to the
fallback index 0, and the function is total (it never raises). -/
def encodeCategorical (l : List String) (v : String) : ℕ :=
  if v ∈ uniqueList l then (uniqueList l).indexOf v else 0

theorem encode_factorize_same (l : List String) (v : String) (j : ℕ)
    (h : l.get? j = some v) :
    (factorize l).get? j = some (encodeCategorical l v) := by
  have hv : v ∈ l := List.get?_mem h
  rw [factorize, List.get?_map, h, Option.map_some']
  rw [encodeCategorical, if_pos (mem_uniqueList.mpr hv)]

theorem encode_unseen (l : List String) (v : String) (h : v ∉ l) :
    encodeCategorical l v = 0 := by
  rw [encodeCategorical, if_neg (fun hm => h (mem_uniqueList.mp hm))]

/-- One record of the canonical raw table consumed by
`FeatureEngineer._add_lag_features` (after `_validate_and_fix_columns`
and the sort by `['pincode', 'date']`): pincode, date (as an ordinal
day number), observed footfall, and the geographic attributes. -/
structure Row where
  pincode : String
  date : ℕ
  footfall : ℚ
  district : String
  state : String
deriving DecidableEq

/-- The pincode of row `j` of the table (`""` out of range). -/
def pinAt (T : List Row) (j : ℕ) : String := ((T.get? j).map Row.pincode).getD ""

/-- The date of row `j` of the table. -/
def dateAt (T : List Row) (j : ℕ) : ℕ := ((T.get? j).map Row.date).getD 0

/-- The observed footfall of row `j` of the table. -/
def ffAt (T : List Row) (j : ℕ) : ℚ := ((T.get? j).map Row.footfall).getD 0

/-- `df.groupby('pincode')['footfall']` for one group: the footfall
values of entity `p` in table order. -/
def groupFF (T : List Row) (p : String) : List ℚ :=
  (T.filter (fun r => r.pincode = p)).map Row.footfall

/-- The position of row `j` inside its own pincode group (pandas
`groupby` keeps rows in original order within each group). -/
def groupIdx (T : List Row) (j : ℕ) : ℕ :=
  ((T.take j).filter (fun r => r.pincode = pinAt T j)).length

/-- `df.groupby('pincode')['footfall'].shift(k)` at row `j`
(feature_engineering.py lines 320-326): the group value `k` positions
earlier, NaN (`none`) while fewer than `k` prior group rows exist. -/
def lagAt (k : ℕ) (T : List Row) (j : ℕ) : Option ℚ :=
  if k ≤ groupIdx T j then (groupFF T (pinAt T j)).get? (groupIdx T j - k) else none

/-- The trailing window that
`groupby('pincode')['footfall'].transform(lambda x: x.rolling(window=w, min_periods=1).STAT()).shift(1)`
applies its statistic to at row `j` (feature_engineering.py lines
329-374).  The `.shift(1)` is applied to the whole column, outside the
groupby, so row `j` reads the rolling value of row `j - 1` — which, at
the first row of each group, belongs to the previous entity.  The value
is NaN (`none`) only at row 0. -/
def rollWin (w : ℕ) (T : List Row) (j : ℕ) : Option (List ℚ) :=
  match j with
  | 0 => none
  | j' + 1 =>
    some (((groupFF T (pinAt T j')).take (groupIdx T j' + 1)).drop (groupIdx T j' + 1 - w))

/-- `footfall_rolling_mean_w` at row `j`. -/
def rollMeanAt (w : ℕ) (T : List Row) (j : ℕ) : Option ℚ := (rollWin w T j).map meanQ

/-- `footfall_rolling_max_30` at row `j`. -/
def rollMaxAt (w : ℕ) (T : List Row) (j : ℕ) : Option ℚ := (rollWin w T j).map maxQ

/-- `footfall_rolling_min_30` at row `j`. -/
def rollMinAt (w : ℕ) (T : List Row) (j : ℕ) : Option ℚ := (rollWin w T j).map minQ

/-- Sample standard deviation of a window, pandas `rolling(...).std()`
with the default `ddof = 1`: NaN on windows of fewer than 2 values. -/
noncomputable def sampleStd (l : List ℚ) : Option ℝ :=
  if l.length ≤ 1 then none else some (Real.sqrt (varQ l))

/-- `footfall_rolling_std_7` at row `j`. -/
noncomputable def rollStdAt (w : ℕ) (T : List Row) (j : ℕ) : Option ℝ :=
  (rollWin w T j).bind sampleStd

/-- `footfall_change_kd = footfall - footfall_lag_k` at row `j`
(feature_engineering.py lines 357 and 360): uses the current row's own
observed footfall. -/
def changeAt (k : ℕ) (T : List Row) (j : ℕ) : Option ℚ :=
  (lagAt k T j).map (fun v => ffAt T j - v)

/-- `lag_ratio_7_to_30 = footfall_lag_7 / (footfall_rolling_mean_30 + 1)`
(feature_engineering.py line 394).  Rational division by zero is 0 where
pandas would produce an infinity; no theorem below depends on that case. -/
def lagRatioAt (T : List Row) (j : ℕ) : Option ℚ :=
  match lagAt 7 T j, rollMeanAt 30 T j with
  | some a, some b => some (a / (b + 1))
  | _, _ => none

/-- The lag/rolling feature row attached to one table row: every column
of `_add_lag_features` plus `lag_ratio_7_to_30`, except the two
`footfall_change_*` columns. -/
structure LagRow where
  lag7 : Option ℚ
  lag14 : Option ℚ
  lag30 : Option ℚ
  m7 : Option ℚ
  m14 : Option ℚ
  m30 : Option ℚ
  s7 : Option ℝ
  mx30 : Option ℚ
  mn30 : Option ℚ
  lr730 : Option ℚ

/-- All lag/rolling features (other than the change columns) at row `j`. -/
noncomputable def lagRowAt (T : List Row) (j : ℕ) : LagRow :=
  ⟨lagAt 7 T j, lagAt 14 T j, lagAt 30 T j,
   rollMeanAt 7 T j, rollMeanAt 14 T j, rollMeanAt 30 T j,
   rollStdAt 7 T j,
   rollMaxAt 30 T j, rollMinAt 30 T j, lagRatioAt T j⟩

/-- Whether row `j` survives the `df.dropna()` of
`engineer_features` (feature_engineering.py lines 219-221): no lag or
rolling column of the row is NaN.  The std column is NaN exactly when
its window holds fewer than 2 values. -/
def keptRow (T : List Row) (j : ℕ) : Bool :=
  (lagAt 7 T j).isSome && (lagAt 14 T j).isSome && (lagAt 30 T j).isSome &&
  (rollWin 7 T j).isSome && (rollWin 14 T j).isSome && (rollWin 30 T j).isSome &&
  decide (2 ≤ (((rollWin 7 T j).map List.length).getD 0)) &&
  (changeAt 7 T j).isSome && (changeAt 30 T j).isSome && (lagRatioAt T j).isSome

/-- The persisted feature table's rows: `df.dropna()` keeps exactly the
rows with no NaN feature. -/
def dropNaRows (T : List Row) : List Row :=
  (List.range T.length).filterMap (fun j => if keptRow T j then T.get? j else none)

/-- A mutation of the table that leaves every observation of entity `e`
strictly before date `d` untouched and rewrites the footfall of any
other row arbitrarily (the pincode and date columns are never changed). -/
def mutateRow (e : String) (d : ℕ) (g : Row → ℚ) (r : Row) : Row :=
  if r.pincode = e ∧ r.date < d then r else { r with footfall := g r }

/-- Within-entity dates strictly increase along the table, and the rows
of each pincode are contiguous — both hold for the engineer's input,
which it sorts by `['pincode', 'date']` with unique `(pincode, date)`
keys. -/
def SortedTable (T : List Row) : Prop :=
  T.Pairwise (fun a b => a.pincode = b.pincode → a.date < b.date) ∧
  ∀ k, k < T.length → ∀ j, j ≤ k → ∀ i, i ≤ j →
    pinAt T i = pinAt T k → pinAt T j = pinAt T i

theorem mutateRow_pincode (e : String) (d : ℕ) (g : Row → ℚ) (r : Row) :
    (mutateRow e d g r).pincode = r.pincode := by
  unfold mutateRow; split <;> rfl

theorem mutateRow_date (e : String) (d : ℕ) (g : Row → ℚ) (r : Row) :
    (mutateRow e d g r).date = r.date := by
  unfold mutateRow; split <;> rfl

theorem mutateRow_protected (e : String) (d : ℕ) (g : Row → ℚ) (r : Row)
    (h1 : r.pincode = e) (h2 : r.date < d) : mutateRow e d g r = r := by
  unfold mutateRow; exact if_pos ⟨h1, h2⟩

theorem filter_map_pin (f : Row → Row) (hf : ∀ r, (f r).pincode = r.pincode)
    (T : List Row) (p : String) :
    (T.map f).filter (fun r => r.pincode = p) =
      (T.filter (fun r => r.pincode = p)).map f := by
  induction T with
  | nil => rfl
  | cons x xs ih =>
    by_cases hx : x.pincode = p
    · simp only [List.map_cons, List.filter_cons]
      rw [if_pos (by simpa [hf] using hx), if_pos (by simpa using hx), List.map_cons, ih]
    · simp only [List.map_cons, List.filter_cons]
      rw [if_neg (by simpa [hf] using hx), if_neg (by simpa using hx), ih]

theorem pinAt_map (f : Row → Row) (hf : ∀ r, (f r).pincode = r.pincode)
    (T : List Row) (j : ℕ) : pinAt (T.map f) j = pinAt T j := by
  unfold pinAt
  rw [List.get?_map]
  cases T.get? j <;> simp [hf]

theorem groupIdx_map (f : Row → Row) (hf : ∀ r, (f r).pincode = r.pincode)
    (T : List Row) (j : ℕ) : groupIdx (T.map f) j = groupIdx T j := by
  unfold groupIdx
  rw [pinAt_map f hf, ← List.map_take, filter_map_pin f hf, List.length_map]

theorem groupFF_map (f : Row → Row) (hf : ∀ r, (f r).pincode = r.pincode)
    (T : List Row) (p : String) :
    groupFF (T.map f) p = (T.filter (fun r => r.pincode = p)).map (fun r => (f r).footfall) := by
  unfold groupFF
  rw [filter_map_pin f hf, List.map_map]
  rfl

/-- The first `n` elements of a filtered list, where `n` is the number of
hits inside the prefix `l.take j`, are exactly the hits of that prefix. -/
theorem filter_take_prefix (l : List Row) (P : Row → Bool) (j : ℕ) :
    (l.filter P).take ((l.take j).filter P).length = (l.take j).filter P := by
  have h : l.filter P = (l.take j).filter P ++ (l.drop j).filter P := by
    rw [← List.filter_append, List.take_append_drop]
  rw [h, List.take_left]

/-- Every row of the prefix `T.take j` carrying the pincode of row `j`
has a strictly earlier date, when within-entity dates increase. -/
theorem prefix_dates_lt (T : List Row) (j : ℕ) (r : Row)
    (hp : T.Pairwise (fun a b => a.pincode = b.pincode → a.date < b.date))
    (hj : T.get? j = some r) :
    ∀ x ∈ T.take j, x.pincode = r.pincode → x.date < r.date := by
  have hsub : List.Sublist (T.take (j + 1)) T := List.take_sublist _ _
  have hpw : (T.take (j + 1)).Pairwise (fun a b => a.pincode = b.pincode → a.date < b.date) :=
    hp.sublist hsub
  rw [List.take_succ] at hpw
  rw [← List.get?_eq_getElem?, hj] at hpw
  rw [List.pairwise_append] at hpw
  intro x hx hpin
  exact hpw.2.2 x hx r (by simp) hpin

/-- A membership in a prefix yields an index with the same `pinAt`. -/
theorem mem_take_pinAt (T : List Row) (j : ℕ) (x : Row) (hx : x ∈ T.take j) :
    ∃ n, n < j ∧ n < T.length ∧ pinAt T n = x.pincode := by
  rcases List.mem_iff_get?.mp hx with ⟨n, hn⟩
  have hnj : n < j := by
    have := List.get?_eq_some.mp hn
    have hlen : n < (T.take j).length := this.1
    exact lt_of_lt_of_le hlen (by simpa using List.length_take_le j T)
  have hT : T.get? n = some x := by
    rw [← List.get?_take hnj]; exact hn
  refine ⟨n, hnj, (List.get?_eq_some.mp hT).1, ?_⟩
  unfold pinAt; rw [hT]; rfl

/-- C1, amended.  Leakage-safety invariant of `_add_lag_features` for
every lag/rolling feature column EXCEPT `footfall_change_7d` and
`footfall_change_30d`: at any row `(e, d)` of the engineered table that
survives the NaN-drop (at least 30 prior observations of its entity),
the features `footfall_lag_7/14/30`, `footfall_rolling_mean_7/14/30`,
`footfall_rolling_std_7`, `footfall_rolling_max_30`,
`footfall_rolling_min_30` and `lag_ratio_7_to_30` are functions only of
observations of entity `e` with date strictly before `d`: rewriting the
observed footfall of every other row — any entity, any date ≥ d —
leaves the feature row unchanged.  (The two change columns are excluded
because they read the current row's own footfall; see the
counterexample.) -/
theorem c1_lag_features_leakage_safe (T : List Row) (e : String) (d : ℕ)
    (g : Row → ℚ) (j : ℕ) (r : Row)
    (hs : SortedTable T) (hj : T.get? j = some r)
    (hpin : r.pincode = e) (hdate : r.date = d)
    (hi : 30 ≤ groupIdx T j) :
    lagRowAt (T.map (mutateRow e d g)) j = lagRowAt T j := by
  have hf : ∀ x, (mutateRow e d g x).pincode = x.pincode := mutateRow_pincode e d g
  have hpinAt : pinAt T j = e := by unfold pinAt; rw [hj]; simpa using hpin
  have hgi : groupIdx T j = ((T.take j).filter (fun x => x.pincode = e)).length := by
    unfold groupIdx; rw [hpinAt]
  have hWfull : (groupFF (T.map (mutateRow e d g)) e).take (groupIdx T j) =
      (groupFF T e).take (groupIdx T j) := by
    rw [groupFF_map _ hf]
    unfold groupFF
    rw [← List.map_take, ← List.map_take, hgi, filter_take_prefix]
    apply List.map_congr_left
    intro x hx
    have hxpin : x.pincode = e := by simpa using List.of_mem_filter hx
    have hxmem : x ∈ T.take j := List.mem_of_mem_filter hx
    have hxdate : x.date < d :=
      hdate ▸ prefix_dates_lt T j r hs.1 hj x hxmem (hxpin.trans hpin.symm)
    rw [mutateRow_protected e d g x hxpin hxdate]
  have hlag : ∀ k, 1 ≤ k → k ≤ groupIdx T j →
      lagAt k (T.map (mutateRow e d g)) j = lagAt k T j := by
    intro k hk1 hki
    have hik : groupIdx T j - k < groupIdx T j :=
      Nat.sub_lt (lt_of_lt_of_le hk1 hki) hk1
    unfold lagAt
    rw [groupIdx_map _ hf, pinAt_map _ hf, hpinAt, if_pos hki, if_pos hki]
    calc (groupFF (T.map (mutateRow e d g)) e).get? (groupIdx T j - k)
        = ((groupFF (T.map (mutateRow e d g)) e).take (groupIdx T j)).get? (groupIdx T j - k) :=
          (List.get?_take hik).symm
      _ = ((groupFF T e).take (groupIdx T j)).get? (groupIdx T j - k) := by rw [hWfull]
      _ = (groupFF T e).get? (groupIdx T j - k) := List.get?_take hik
  have hjlen : j < T.length := (List.get?_eq_some.mp hj).1
  obtain ⟨j', rfl⟩ : ∃ j', j = j' + 1 := by
    cases j with
    | zero =>
      exfalso
      have h0 : groupIdx T 0 = 0 := by unfold groupIdx; simp
      omega
    | succ n => exact ⟨n, rfl⟩
  have hex : ∃ n, n < j' + 1 ∧ n < T.length ∧ pinAt T n = e := by
    have hne : ((T.take (j' + 1)).filter (fun x => decide (x.pincode = e))).length ≠ 0 := by
      omega
    have hne2 : (T.take (j' + 1)).filter (fun x => decide (x.pincode = e)) ≠ [] := by
      intro hnil; rw [hnil] at hne; exact hne rfl
    rcases List.exists_mem_of_ne_nil _ hne2 with ⟨x, hx⟩
    have hxpin : x.pincode = e := by simpa using List.of_mem_filter hx
    rcases mem_take_pinAt T (j' + 1) x (List.mem_of_mem_filter hx) with ⟨n, hn1, hn2, hn3⟩
    exact ⟨n, hn1, hn2, hn3.trans hxpin⟩
  rcases hex with ⟨n, hn1, hn2, hn3⟩
  have hpinj' : pinAt T j' = e := by
    have := hs.2 (j' + 1) hjlen j' (Nat.le_succ j') n (by omega)
      (hn3.trans hpinAt.symm)
    rw [this, hn3]
  obtain ⟨r', hr'⟩ : ∃ r', T.get? j' = some r' := by
    cases hcase : T.get? j' with
    | none =>
      exfalso
      have := List.get?_eq_none.mp hcase
      omega
    | some v => exact ⟨v, rfl⟩
  have hr'pin : r'.pincode = e := by
    have hpa : pinAt T j' = r'.pincode := by unfold pinAt; rw [hr']; rfl
    rw [← hpa, hpinj']
  have hgi' : groupIdx T (j' + 1) = groupIdx T j' + 1 := by
    unfold groupIdx
    rw [hpinAt, hpinj', List.take_succ, ← List.get?_eq_getElem?, hr']
    rw [List.filter_append]
    simp [hr'pin]
  have hwin : ∀ w, rollWin w (T.map (mutateRow e d g)) (j' + 1) = rollWin w T (j' + 1) := by
    intro w
    have hw1 : ∀ (S : List Row), rollWin w S (j' + 1) =
        some (((groupFF S (pinAt S j')).take (groupIdx S j' + 1)).drop
          (groupIdx S j' + 1 - w)) := fun S => rfl
    rw [hw1, hw1]
    rw [groupIdx_map _ hf, pinAt_map _ hf, hpinj']
    have hto : groupIdx T j' + 1 = groupIdx T (j' + 1) := hgi'.symm
    rw [hto, hWfull]
  have hm : ∀ w, rollMeanAt w (T.map (mutateRow e d g)) (j' + 1) = rollMeanAt w T (j' + 1) := by
    intro w; unfold rollMeanAt; rw [hwin w]
  have hmx : rollMaxAt 30 (T.map (mutateRow e d g)) (j' + 1) = rollMaxAt 30 T (j' + 1) := by
    unfold rollMaxAt; rw [hwin 30]
  have hmn : rollMinAt 30 (T.map (mutateRow e d g)) (j' + 1) = rollMinAt 30 T (j' + 1) := by
    unfold rollMinAt; rw [hwin 30]
  have hstd : rollStdAt 7 (T.map (mutateRow e d g)) (j' + 1) = rollStdAt 7 T (j' + 1) := by
    unfold rollStdAt; rw [hwin 7]
  have hratio : lagRatioAt (T.map (mutateRow e d g)) (j' + 1) = lagRatioAt T (j' + 1) := by
    unfold lagRatioAt; rw [hlag 7 (by norm_num) (by omega), hm 30]
  unfold lagRowAt
  rw [hlag 7 (by norm_num) (by omega), hlag 14 (by norm_num) (by omega),
    hlag 30 (by norm_num) (by omega), hm 7, hm 14, hm 30, hstd, hmx, hmn, hratio]

/-- A 31-day single-entity table (entity `"P"`, dates 0..30, constant
footfall 100): its last row is the first row to survive the NaN-drop. -/
def sampleTable : List Row :=
  (List.range 31).map (fun n => ⟨"P", n, 100, "D", "S"⟩)

/-- `sampleTable` with the observed footfall of the final row (date 30)
changed from 100 to 200; every observation strictly before date 30 is
identical. -/
def sampleTable2 : List Row :=
  (List.range 31).map (fun n => ⟨"P", n, if n = 30 then 200 else 100, "D", "S"⟩)

/-- C1, counterexample.  The claim is false as stated: it lists
`footfall_change_7d` and `footfall_change_30d` among the leakage-safe
columns, but both are computed from the row's own observed footfall
(`df['footfall'] - df['footfall_lag_k']`, feature_engineering.py lines
357-360).  `sampleTable` and `sampleTable2` share the same
(pincode, date) skeleton and agree on every observation with date < 30,
the row (P, 30) survives the NaN-drop in both, yet changing the
observed value AT date 30 changes both change-features of that row. -/
theorem c1_change_features_leak :
    (sampleTable.map (fun r => (r.pincode, r.date)) =
      sampleTable2.map (fun r => (r.pincode, r.date)))
    ∧ (∀ j, j < 31 → dateAt sampleTable j < 30 → ffAt sampleTable j = ffAt sampleTable2 j)
    ∧ keptRow sampleTable 30 = true ∧ keptRow sampleTable2 30 = true
    ∧ pinAt sampleTable 30 = "P" ∧ dateAt sampleTable 30 = 30
    ∧ changeAt 7 sampleTable 30 ≠ changeAt 7 sampleTable2 30
    ∧ changeAt 30 sampleTable 30 ≠ changeAt 30 sampleTable2 30 := by
  refine ⟨by decide, by decide, by decide, by decide, by decide, by decide, ?_, ?_⟩
  · simp only [changeAt,
      show lagAt 7 sampleTable 30 = some 100 from by decide,
      show lagAt 7 sampleTable2 30 = some 100 from by decide,
      show ffAt sampleTable 30 = (100 : ℚ) from by decide,
      show ffAt sampleTable2 30 = (200 : ℚ) from by decide, Option.map_some']
    norm_num
  · simp only [changeAt,
      show lagAt 30 sampleTable 30 = some 100 from by decide,
      show lagAt 30 sampleTable2 30 = some 100 from by decide,
      show ffAt sampleTable 30 = (100 : ℚ) from by decide,
      show ffAt sampleTable2 30 = (200 : ℚ) from by decide, Option.map_some']
    norm_num

/-- Witness for C1 (amended): the theorem applied to `sampleTable` at
row 30, mutating every observation outside {entity P, date < 30} to the
constant 777. -/
theorem c1_witness :
    SortedTable sampleTable ∧
    lagRowAt (sampleTable.map (mutateRow "P" 30 (fun _ => 777))) 30 =
      lagRowAt sampleTable 30 := by
  have hs : SortedTable sampleTable := by
    constructor
    · decide
    · decide
  exact ⟨hs, c1_lag_features_leakage_safe sampleTable "P" 30 (fun _ => 777) 30
    ⟨"P", 30, 100, "D", "S"⟩ hs (by decide) rfl rfl (by decide)⟩

/-- A table whose first entity "A" has a single observation (so every
one of its rows is dropped by the NaN filter) followed by entity "B"
with 31 observations, of which exactly the last survives.  Districts
are constant per entity: "D1" for A, "D2" for B. -/
def c3Table : List Row :=
  ⟨"A", 0, 100, "D1", "S1"⟩ :: (List.range 31).map (fun n => ⟨"B", n, 100, "D2", "S1"⟩)

/-- C3, counterexample.  The claim is false as stated: the Feature
Engineer factorizes the district column of the full sorted table BEFORE
the NaN rows are dropped, while `_encode_categorical` indexes into
`unique()` of the PERSISTED (post-drop) table.  On `c3Table` the value
"D2" is seen in training and receives training code 1 (both its rows
carrying it, e.g. row 31), but entity "A" loses its only row to the
NaN-drop, so "D1" disappears from the persisted table and the inference
code of "D2" is 0 ≠ 1. -/
theorem c3_encoding_mismatch :
    ("D2" ∈ c3Table.map Row.district)
    ∧ (factorize (c3Table.map Row.district)).get? 31 = some 1
    ∧ (dropNaRows c3Table).map Row.district = ["D2"]
    ∧ encodeCategorical ((dropNaRows c3Table).map Row.district) "D2" = 0
    ∧ (0 : ℕ) ≠ 1 := by
  decide

/-- C3, amended.  Whenever the training column and the persisted column
have the same distinct values in the same order of first appearance (in
particular whenever no entity is wholly dropped by the NaN filter, and
always when the two tables coincide), the code `_encode_categorical`
computes at inference time for any value `v` seen in training equals the
`pd.factorize` code the Feature Engineer assigned to every row carrying
`v`; a value not present in the persisted column maps to the fixed
fallback index 0, and the encoder is total (it never raises). -/
theorem c3_encoding_stability (ltrain lpers : List String) (v : String)
    (huniq : uniqueList ltrain = uniqueList lpers) :
    (∀ j, ltrain.get? j = some v →
      (factorize ltrain).get? j = some (encodeCategorical lpers v)) ∧
    (v ∉ lpers → encodeCategorical lpers v = 0) := by
  constructor
  · intro j hj
    rw [encode_factorize_same ltrain v j hj]
    have hv : v ∈ ltrain := List.get?_mem hj
    rw [encodeCategorical, encodeCategorical, huniq,
      if_pos (huniq ▸ mem_uniqueList.mpr hv)]
  · exact encode_unseen lpers v

/-- Witness for C3 (amended): training and persisted district columns
agree, "Delhi" is seen at position 2 of the training column, and the
unseen value "Pune" maps to the fallback 0. -/
theorem c3_witness :
    uniqueList ["Delhi", "Mumbai", "Delhi"] = uniqueList ["Delhi", "Mumbai"] ∧
    (factorize ["Delhi", "Mumbai", "Delhi"]).get? 2 =
      some (encodeCategorical ["Delhi", "Mumbai"] "Delhi") ∧
    encodeCategorical ["Delhi", "Mumbai"] "Pune" = 0 := by
  have h := c3_encoding_stability ["Delhi", "Mumbai", "Delhi"] ["Delhi", "Mumbai"] "Delhi"
    (by decide)
  refine ⟨by decide, h.1 2 (by decide), ?_⟩
  exact (c3_encoding_stability ["Delhi", "Mumbai", "Delhi"] ["Delhi", "Mumbai"] "Pune"
    (by decide)).2 (by decide)

/-- A calendar date as the prediction code reads it: an ordinal day
number `ord` used for comparisons (`pd.Timestamp` ordering), the
calendar fields the temporal features consume, and the ISO string used
for holiday lookups.  The embedding never needs to relate the fields to
one another. -/
structure SDate where
  ord : ℕ
  month : ℕ
  day : ℕ
  dayofweek : ℕ
  dayofyear : ℕ
  iso : String
deriving DecidableEq

/-- A cell value of the persisted feature table / of a built feature
vector: a rational, a string (e.g. `pincode_category`), NaN, or a real
(the one irrational feature value, a rolling standard deviation). -/
inductive Value where
  | num (q : ℚ)
  | str (s : String)
  | vnan
  | real (x : ℝ)

/-- One row of the persisted feature table `pec_features.csv` as loaded
by `PECPredictor.__init__`: its pincode, its date, and all remaining
columns as name/value pairs. -/
structure FRow where
  pincode : String
  date : SDate
  vals : List (String × Value)

/-- Column access on a feature row (the persisted table contains every
column the predictor reads, so the default is never hit on real data). -/
def getVal (r : FRow) (n : String) : Value := (r.vals.lookup n).getD (Value.num 0)

/-- Numeric column access (the columns so read are numeric on real data). -/
def getNum (r : FRow) (n : String) : ℚ :=
  match r.vals.lookup n with
  | some (Value.num q) => q
  | _ => 0

/-- String column access (district / state / center_type). -/
def getStr (r : FRow) (n : String) : String :=
  match r.vals.lookup n with
  | some (Value.str s) => s
  | _ => ""

/-- Stable insertion step for sorting a pin's history by date
ascending, as `pin_history.sort_values('date')` does. -/
def insertAsc (x : FRow) : List FRow → List FRow
  | [] => [x]
  | y :: ys => if x.date.ord ≤ y.date.ord then x :: y :: ys else y :: insertAsc x ys

/-- `sort_values('date')` on a pin's history (stable; pandas uses an
unstable kind by default, but per-pin dates are unique so the sorted
sequence is the same). -/
def sortByDate : List FRow → List FRow
  | [] => []
  | x :: xs => insertAsc x (sortByDate xs)

theorem mem_insertAsc {a x : FRow} : ∀ {l : List FRow}, a ∈ insertAsc x l ↔ a = x ∨ a ∈ l := by
  intro l
  induction l with
  | nil => simp [insertAsc]
  | cons y ys ih =>
    unfold insertAsc
    split
    · simp
    · rw [List.mem_cons, ih]
      constructor
      · rintro (h | h | h)
        · exact Or.inr (List.mem_cons.mpr (Or.inl h))
        · exact Or.inl h
        · exact Or.inr (List.mem_cons.mpr (Or.inr h))
      · rintro (h | h)
        · exact Or.inr (Or.inl h)
        · rcases List.mem_cons.mp h with h | h
          · exact Or.inl h
          · exact Or.inr (Or.inr h)

theorem mem_sortByDate {a : FRow} : ∀ {l : List FRow}, a ∈ sortByDate l ↔ a ∈ l := by
  intro l
  induction l with
  | nil => simp [sortByDate]
  | cons x xs ih =>
    rw [sortByDate, mem_insertAsc, ih, List.mem_cons]

theorem length_insertAsc (x : FRow) : ∀ (l : List FRow), (insertAsc x l).length = l.length + 1 := by
  intro l
  induction l with
  | nil => rfl
  | cons y ys ih =>
    unfold insertAsc
    split
    · rfl
    · simpa using ih

theorem length_sortByDate : ∀ (l : List FRow), (sortByDate l).length = l.length := by
  intro l
  induction l with
  | nil => rfl
  | cons x xs ih => rw [sortByDate, length_insertAsc, ih]; rfl

/-- `pin_history['date'].max()` (as an ordinal; 0 on the empty list,
which the caller has excluded). -/
def maxOrd (l : List ℕ) : ℕ := l.foldl max 0

theorem foldl_max_init_le (l : List ℕ) : ∀ b : ℕ, b ≤ l.foldl max b := by
  induction l with
  | nil => intro b; exact le_refl b
  | cons x xs ih => intro b; exact le_trans (le_max_left b x) (ih (max b x))

theorem foldl_max_mono (l : List ℕ) : ∀ b c : ℕ, b ≤ c → l.foldl max b ≤ l.foldl max c := by
  induction l with
  | nil => intro b c h; exact h
  | cons x xs ih => intro b c h; exact ih (max b x) (max c x) (max_le_max h (le_refl x))

theorem le_maxOrd {a : ℕ} : ∀ {l : List ℕ}, a ∈ l → a ≤ maxOrd l := by
  intro l
  induction l with
  | nil => intro h; cases h
  | cons x xs ih =>
    intro h
    rcases List.mem_cons.mp h with h | h
    · subst h
      exact le_trans (le_trans (le_max_right 0 a) (foldl_max_init_le xs (max 0 a))) (le_refl _)
    · exact le_trans (ih h) (foldl_max_mono xs 0 (max 0 x) (le_max_left 0 x))

/-- The ordinal encoding of `center_type`
({'Rural': 0, 'Semi-Urban': 1, 'Urban': 2}), shared verbatim by
`_add_geographic_features` and `_build_features`. -/
def canonTypeMapping : List (String × ℚ) :=
  [("Rural", 0), ("Semi-Urban", 1), ("Urban", 2)]

namespace FE

/-- The hardcoded Indian-holiday calendar of `FeatureEngineer.__init__`. -/
def holidays : List String :=
  ["2025-01-26", "2025-03-14", "2025-03-31", "2025-04-10", "2025-04-14",
   "2025-05-01", "2025-08-15", "2025-08-27", "2025-10-02", "2025-10-24",
   "2025-11-01", "2025-12-25",
   "2026-01-26", "2026-03-03", "2026-03-25", "2026-03-30", "2026-04-14",
   "2026-05-01", "2026-08-15", "2026-08-16", "2026-10-02", "2026-10-13",
   "2026-11-01", "2026-11-14", "2026-12-25"]

/-- `df['day_of_week'] = df['date'].dt.dayofweek`. -/
def day_of_week (d : SDate) : ℚ := d.dayofweek

/-- `df['is_weekend'] = (df['day_of_week'] >= 5).astype(int)`. -/
def is_weekend (d : SDate) : ℚ := if 5 ≤ d.dayofweek then 1 else 0

/-- `df['is_monday'] = (df['day_of_week'] == 0).astype(int)`. -/
def is_monday (d : SDate) : ℚ := if d.dayofweek = 0 then 1 else 0

/-- `df['month'] = df['date'].dt.month`. -/
def month (d : SDate) : ℚ := d.month

/-- `df['quarter'] = df['date'].dt.quarter`; pandas computes the
quarter of a valid month `m` as `(m + 2) // 3`. -/
def quarter (d : SDate) : ℚ := ((d.month + 2) / 3 : ℕ)

/-- `df['week_of_month'] = ((df['date'].dt.day - 1) // 7 + 1)`. -/
def week_of_month (d : SDate) : ℚ := ((d.day - 1) / 7 + 1 : ℕ)

/-- `df['day_of_month'] = df['date'].dt.day`. -/
def day_of_month (d : SDate) : ℚ := d.day

/-- `df['is_first_week'] = (df['week_of_month'] == 1).astype(int)`. -/
def is_first_week (d : SDate) : ℚ := if ((d.day - 1) / 7 + 1 : ℕ) = 1 then 1 else 0

/-- `df['is_holiday'] = df['date'].dt.strftime('%Y-%m-%d').isin(self.holidays).astype(int)`. -/
def is_holiday (hol : List String) (d : SDate) : ℚ := if d.iso ∈ hol then 1 else 0

/-- `df['is_day_after_holiday'] = df.groupby('pincode')['is_holiday'].shift(1).fillna(0)`:
the previous observation's holiday flag for the same entity, 0 at the
first row of a group. -/
def is_day_after_holiday (hol : List String) (prev : Option SDate) : ℚ :=
  match prev with
  | none => 0
  | some dp => is_holiday hol dp

/-- `df['is_enrollment_season'] = df['month'].isin([6, 7]).astype(int)`. -/
def is_enrollment_season (d : SDate) : ℚ := if d.month = 6 ∨ d.month = 7 then 1 else 0

/-- `df['is_pension_month'] = (df['month'] == 11).astype(int)`. -/
def is_pension_month (d : SDate) : ℚ := if d.month = 11 then 1 else 0

/-- `df['is_festival_season'] = (df['month'] == 10).astype(int)`. -/
def is_festival_season (d : SDate) : ℚ := if d.month = 10 then 1 else 0

/-- `df['day_of_year'] = df['date'].dt.dayofyear`. -/
def day_of_year (d : SDate) : ℚ := d.dayofyear

/-- `df['center_type_encoded'] = df['center_type'].map(type_mapping)`:
`Series.map` leaves unmapped values NaN (`none`). -/
def center_type_encoded (ct : String) : Option ℚ := canonTypeMapping.lookup ct

/-- `df['is_urban'] = (df['center_type'] == 'Urban').astype(int)`. -/
def is_urban (ct : String) : ℚ := if ct = "Urban" then 1 else 0

/-- `df['is_rural'] = (df['center_type'] == 'Rural').astype(int)`. -/
def is_rural (ct : String) : ℚ := if ct = "Rural" then 1 else 0

/-- `df['rural_pension_interaction'] = df['is_rural'] * df['is_pension_month']`. -/
def rural_pension_interaction (ct : String) (d : SDate) : ℚ := is_rural ct * is_pension_month d

/-- `df['urban_enrollment_interaction'] = df['is_urban'] * df['is_enrollment_season']`. -/
def urban_enrollment_interaction (ct : String) (d : SDate) : ℚ := is_urban ct * is_enrollment_season d

/-- `df['monday_first_week'] = df['is_monday'] * df['is_first_week']`. -/
def monday_first_week (d : SDate) : ℚ := is_monday d * is_first_week d

/-- `df['weekend_holiday'] = df['is_weekend'] * df['is_holiday']`. -/
def weekend_holiday (hol : List String) (d : SDate) : ℚ := is_weekend d * is_holiday hol d

end FE

namespace PR

/-- `features['day_of_week'] = target_date.dayofweek` (predict.py line 223). -/
def day_of_week (d : SDate) : ℚ := d.dayofweek

/-- `features['is_weekend'] = int(target_date.dayofweek >= 5)`. -/
def is_weekend (d : SDate) : ℚ := if 5 ≤ d.dayofweek then 1 else 0

/-- `features['is_monday'] = int(target_date.dayofweek == 0)`. -/
def is_monday (d : SDate) : ℚ := if d.dayofweek = 0 then 1 else 0

/-- `features['month'] = target_date.month`. -/
def month (d : SDate) : ℚ := d.month

/-- `features['quarter'] = (target_date.month - 1) // 3 + 1` (Python
floor division; months are ≥ 1 on real dates). -/
def quarter (d : SDate) : ℚ := ((d.month - 1) / 3 + 1 : ℕ)

/-- `features['week_of_month'] = (target_date.day - 1) // 7 + 1`. -/
def week_of_month (d : SDate) : ℚ := ((d.day - 1) / 7 + 1 : ℕ)

/-- `features['day_of_month'] = target_date.day`. -/
def day_of_month (d : SDate) : ℚ := d.day

/-- `features['is_first_week'] = int(features['week_of_month'] == 1)`. -/
def is_first_week (d : SDate) : ℚ := if ((d.day - 1) / 7 + 1 : ℕ) = 1 then 1 else 0

/-- `features['day_of_year'] = target_date.timetuple().tm_yday`. -/
def day_of_year (d : SDate) : ℚ := d.dayofyear

/-- `features['is_holiday'] = 0` (predict.py line 234: "simplified -
would need actual holiday calendar"): the constant 0, whatever the date. -/
def is_holiday (_d : SDate) : ℚ := 0

/-- `features['is_day_after_holiday'] = 0` (predict.py line 235). -/
def is_day_after_holiday (_d : SDate) : ℚ := 0

/-- `features['is_enrollment_season'] = int(target_date.month in [6, 7])`. -/
def is_enrollment_season (d : SDate) : ℚ := if d.month = 6 ∨ d.month = 7 then 1 else 0

/-- `features['is_pension_month'] = int(target_date.month == 11)`. -/
def is_pension_month (d : SDate) : ℚ := if d.month = 11 then 1 else 0

/-- `features['is_festival_season'] = int(target_date.month == 10)`. -/
def is_festival_season (d : SDate) : ℚ := if d.month = 10 then 1 else 0

/-- `features['center_type_encoded'] = type_mapping.get(info['center_type'], 1)`:
the same mapping as training, but with default 1 for unmapped values. -/
def center_type_encoded (ct : String) : ℚ := (canonTypeMapping.lookup ct).getD 1

/-- `features['is_urban'] = int(info['center_type'] == 'Urban')`. -/
def is_urban (ct : String) : ℚ := if ct = "Urban" then 1 else 0

/-- `features['is_rural'] = int(info['center_type'] == 'Rural')`. -/
def is_rural (ct : String) : ℚ := if ct = "Rural" then 1 else 0

/-- `features['rural_pension_interaction'] = features['is_rural'] * features['is_pension_month']`. -/
def rural_pension_interaction (ct : String) (d : SDate) : ℚ := is_rural ct * is_pension_month d

/-- `features['urban_enrollment_interaction'] = features['is_urban'] * features['is_enrollment_season']`. -/
def urban_enrollment_interaction (ct : String) (d : SDate) : ℚ := is_urban ct * is_enrollment_season d

/-- `features['monday_first_week'] = features['is_monday'] * features['is_first_week']`. -/
def monday_first_week (d : SDate) : ℚ := is_monday d * is_first_week d

/-- `features['weekend_holiday'] = features['is_weekend'] * features['is_holiday']`. -/
def weekend_holiday (d : SDate) : ℚ := is_weekend d * is_holiday d

end PR

/-- The fixed cold-start defaults of `_calculate_lag_features`
(predict.py lines 285-296), emitted when the entity has no observation
strictly before the target date. -/
def lagDefaults : List (String × Value) :=
  [("footfall_lag_7", Value.num 100),
   ("footfall_lag_14", Value.num 100),
   ("footfall_lag_30", Value.num 100),
   ("footfall_rolling_mean_7", Value.num 100),
   ("footfall_rolling_mean_14", Value.num 100),
   ("footfall_rolling_mean_30", Value.num 100),
   ("footfall_rolling_std_7", Value.num 10),
   ("footfall_rolling_max_30", Value.num 150),
   ("footfall_rolling_min_30", Value.num 50)]

/-- `recent.tail(7)['footfall'].std() or 10` (predict.py line 318):
pandas `std` (ddof = 1) is NaN on a single value — and Python's
`NaN or 10` is NaN, which stays; a zero std (falsy) becomes 10; any
other std is kept. -/
noncomputable def stdOr10 (l : List ℚ) : Value :=
  if l.length ≤ 1 then Value.vnan
  else if varQ l = 0 then Value.num 10
  else Value.real (Real.sqrt (varQ l))

/-- `PECPredictor._calculate_lag_features` (predict.py lines 279-322):
`recent` is the last 60 observations strictly before the target date;
an empty `recent` yields the fixed defaults; a lag `k` with at least
`k` observations reads `recent.iloc[-k]`, otherwise the mean of
`recent`; rolling statistics are taken over `recent.tail(w)`. -/
noncomputable def calcLag (ph : List FRow) (t : SDate) : List (String × Value) :=
  if (tailN 60 (ph.filter (fun r => r.date.ord < t.ord))).length = 0 then lagDefaults
  else
    [("footfall_lag_7", Value.num
        (if 7 ≤ (tailN 60 (ph.filter (fun r => r.date.ord < t.ord))).length then
          (((tailN 60 (ph.filter (fun r => r.date.ord < t.ord))).map (fun r => getNum r "footfall")).get?
            ((tailN 60 (ph.filter (fun r => r.date.ord < t.ord))).length - 7)).getD 0
        else meanQ ((tailN 60 (ph.filter (fun r => r.date.ord < t.ord))).map (fun r => getNum r "footfall")))),
     ("footfall_lag_14", Value.num
        (if 14 ≤ (tailN 60 (ph.filter (fun r => r.date.ord < t.ord))).length then
          (((tailN 60 (ph.filter (fun r => r.date.ord < t.ord))).map (fun r => getNum r "footfall")).get?
            ((tailN 60 (ph.filter (fun r => r.date.ord < t.ord))).length - 14)).getD 0
        else meanQ ((tailN 60 (ph.filter (fun r => r.date.ord < t.ord))).map (fun r => getNum r "footfall")))),
     ("footfall_lag_30", Value.num
        (if 30 ≤ (tailN 60 (ph.filter (fun r => r.date.ord < t.ord))).length then
          (((tailN 60 (ph.filter (fun r => r.date.ord < t.ord))).map (fun r => getNum r "footfall")).get?
            ((tailN 60 (ph.filter (fun r => r.date.ord < t.ord))).length - 30)).getD 0
        else meanQ ((tailN 60 (ph.filter (fun r => r.date.ord < t.ord))).map (fun r => getNum r "footfall")))),
     ("footfall_rolling_mean_7", Value.num
        (meanQ (tailN 7 ((tailN 60 (ph.filter (fun r => r.date.ord < t.ord))).map (fun r => getNum r "footfall"))))),
     ("footfall_rolling_mean_14", Value.num
        (meanQ (tailN 14 ((tailN 60 (ph.filter (fun r => r.date.ord < t.ord))).map (fun r => getNum r "footfall"))))),
     ("footfall_rolling_mean_30", Value.num
        (meanQ (tailN 30 ((tailN 60 (ph.filter (fun r => r.date.ord < t.ord))).map (fun r => getNum r "footfall"))))),
     ("footfall_rolling_std_7",
        stdOr10 (tailN 7 ((tailN 60 (ph.filter (fun r => r.date.ord < t.ord))).map (fun r => getNum r "footfall")))),
     ("footfall_rolling_max_30", Value.num
        (maxQ (tailN 30 ((tailN 60 (ph.filter (fun r => r.date.ord < t.ord))).map (fun r => getNum r "footfall"))))),
     ("footfall_rolling_min_30", Value.num
        (minQ (tailN 30 ((tailN 60 (ph.filter (fun r => r.date.ord < t.ord))).map (fun r => getNum r "footfall")))))]

/-- Dictionary lookup on a built feature list. -/
def lookupVal (l : List (String × Value)) (n : String) : Option Value := l.lookup n

/-- The placeholder row produced when a pincode has no row at all (the
callers below only reach this with a nonempty history). -/
def emptyFRow : FRow := ⟨"", ⟨0, 0, 0, 0, 0, ""⟩, []⟩

/-- The feature dictionary built by the general (non-materialized) path
of `PECPredictor._build_features` (predict.py lines 219-267), in the
insertion order of the source. -/
noncomputable def generalFeats (hist : List FRow) (pinHistory : List FRow)
    (p : String) (t : SDate) : List (String × Value) :=
  (([("day_of_week", Value.num (PR.day_of_week t)),
    ("is_weekend", Value.num (PR.is_weekend t)),
    ("is_monday", Value.num (PR.is_monday t)),
    ("month", Value.num (PR.month t)),
    ("quarter", Value.num (PR.quarter t)),
    ("week_of_month", Value.num (PR.week_of_month t)),
    ("day_of_month", Value.num (PR.day_of_month t)),
    ("is_first_week", Value.num (PR.is_first_week t)),
    ("day_of_year", Value.num (PR.day_of_year t)),
    ("is_holiday", Value.num (PR.is_holiday t)),
    ("is_day_after_holiday", Value.num (PR.is_day_after_holiday t)),
    ("is_enrollment_season", Value.num (PR.is_enrollment_season t)),
    ("is_pension_month", Value.num (PR.is_pension_month t)),
    ("is_festival_season", Value.num (PR.is_festival_season t)),
    ("center_type_encoded", Value.num
      (PR.center_type_encoded (getStr ((hist.find? (fun r => r.pincode = p)).getD emptyFRow) "center_type"))),
    ("is_urban", Value.num
      (PR.is_urban (getStr ((hist.find? (fun r => r.pincode = p)).getD emptyFRow) "center_type"))),
    ("is_rural", Value.num
      (PR.is_rural (getStr ((hist.find? (fun r => r.pincode = p)).getD emptyFRow) "center_type"))),
    ("state_encoded", Value.num
      (encodeCategorical (hist.map (fun r => getStr r "state"))
        (getStr ((hist.find? (fun r => r.pincode = p)).getD emptyFRow) "state"))),
    ("district_encoded", Value.num
      (encodeCategorical (hist.map (fun r => getStr r "district"))
        (getStr ((hist.find? (fun r => r.pincode = p)).getD emptyFRow) "district")))]
   ++ calcLag pinHistory t
   ++ [("rural_pension_interaction", Value.num
        (PR.rural_pension_interaction (getStr ((hist.find? (fun r => r.pincode = p)).getD emptyFRow) "center_type") t)),
      ("urban_enrollment_interaction", Value.num
        (PR.urban_enrollment_interaction (getStr ((hist.find? (fun r => r.pincode = p)).getD emptyFRow) "center_type") t)),
      ("monday_first_week", Value.num (PR.monday_first_week t)),
      ("weekend_holiday", Value.num (PR.weekend_holiday t))])
   ++ [("lag_ratio_7_to_30",
        match lookupVal (calcLag pinHistory t) "footfall_lag_7",
          lookupVal (calcLag pinHistory t) "footfall_rolling_mean_30" with
        | some (Value.num a), some (Value.num b) => Value.num (a / (b + 1))
        | _, _ => Value.num 1)])
   ++ [("pincode_category", Value.str p)]

/-- `PECPredictor._build_features` (predict.py lines 190-277): `None` on
an empty pin history; the materialized row restricted to
`self.feature_names` when the target date is within the pin's history
and an exact row exists (the fast path); otherwise the general path,
with any feature name absent from the built dictionary zero-filled. -/
noncomputable def buildFeatures (hist : List FRow) (featureNames : List String)
    (p : String) (t : SDate) : Option (List (String × Value)) :=
  if (sortByDate (hist.filter (fun r => r.pincode = p))).length = 0 then none
  else if t.ord ≤ maxOrd ((sortByDate (hist.filter (fun r => r.pincode = p))).map (fun r => r.date.ord)) ∧
      (hist.filter (fun r => r.pincode = p ∧ r.date = t)).length ≠ 0 then
    (hist.filter (fun r => r.pincode = p ∧ r.date = t)).head?.map
      (fun r => featureNames.map (fun n => (n, getVal r n)))
  else
    some (featureNames.map (fun n =>
      (n, (lookupVal (generalFeats hist (sortByDate (hist.filter (fun r => r.pincode = p))) p t) n).getD
        (Value.num 0))))

/-- `self.pincode_info[p]` (predict.py lines 331-342): the first row of
the historical table carrying pincode `p`, if any. -/
def pincodeInfo (hist : List FRow) (p : String) : Option FRow :=
  hist.find? (fun r => r.pincode = p)

/-- `PECPredictor.predict_single_day` (predict.py lines 50-83): `None`
for a pincode absent from `pincode_info`; otherwise the regressor's
output on the built feature vector, clamped by
`max(0, int(round(prediction)))`.  The opaque trained regressor is the
parameter `model`.  (Python's `round` rounds halves to even; `round` on
ℚ rounds halves up — no property below depends on exact halves.) -/
noncomputable def predictSingleDay (model : List (String × Value) → ℚ)
    (hist : List FRow) (featureNames : List String) (p : String) (t : SDate) : Option ℤ :=
  match pincodeInfo hist p with
  | none => none
  | some _ => (buildFeatures hist featureNames p t).map (fun v => max 0 (round (model v)))

/-- One row of the comparison table built by `compare_pincodes`. -/
structure CompRow where
  pincode : String
  district : String
  state : String
  center_type : String
  predicted_footfall : ℤ
deriving DecidableEq

/-- One iteration of the `compare_pincodes` loop (predict.py lines
173-184): an entry when the prediction succeeded and the pincode is in
`pincode_info`, nothing otherwise. -/
noncomputable def compEntry (model : List (String × Value) → ℚ) (hist : List FRow)
    (featureNames : List String) (t : SDate) (p : String) : Option CompRow :=
  match predictSingleDay model hist featureNames p t, pincodeInfo hist p with
  | some v, some r =>
    some ⟨p, getStr r "district", getStr r "state", getStr r "center_type", v⟩
  | _, _ => none

/-- The `results` list of `PECPredictor.compare_pincodes` (predict.py
lines 171-184), in input order: one entry per input pincode whose
prediction succeeded and which is present in `pincode_info`. -/
noncomputable def compResults (model : List (String × Value) → ℚ) (hist : List FRow)
    (featureNames : List String) (pincodes : List String) (t : SDate) : List CompRow :=
  pincodes.filterMap (compEntry model hist featureNames t)

/-- Stable insertion step for the descending sort. -/
def insertDesc (x : CompRow) : List CompRow → List CompRow
  | [] => [x]
  | y :: ys =>
    if y.predicted_footfall ≤ x.predicted_footfall then x :: y :: ys else y :: insertDesc x ys

/-- `DataFrame.sort_values('predicted_footfall', ascending=False)` as a
stable descending sort: pandas reverses the column, asc-argsorts it and
reverses the result, which preserves the input order of ties whenever
the underlying argsort is stable (numpy's introsort runs an insertion
sort on the small partitions comparison calls produce). -/
def sortDesc : List CompRow → List CompRow
  | [] => []
  | x :: xs => insertDesc x (sortDesc xs)

/-- `PECPredictor.compare_pincodes` (predict.py lines 160-188):
`pd.DataFrame(results).sort_values('predicted_footfall', ascending=False)`.
On an empty `results` the DataFrame has no columns and `sort_values`
raises `KeyError: 'predicted_footfall'`. -/
noncomputable def comparePincodes (model : List (String × Value) → ℚ) (hist : List FRow)
    (featureNames : List String) (pincodes : List String) (t : SDate) :
    Except String (List CompRow) :=
  if (compResults model hist featureNames pincodes t).length = 0 then
    Except.error "KeyError: predicted_footfall"
  else
    Except.ok (sortDesc (compResults model hist featureNames pincodes t))

theorem mem_insertDesc {a x : CompRow} :
    ∀ {l : List CompRow}, a ∈ insertDesc x l ↔ a = x ∨ a ∈ l := by
  intro l
  induction l with
  | nil => simp [insertDesc]
  | cons y ys ih =>
    unfold insertDesc
    split
    · simp
    · rw [List.mem_cons, ih]
      constructor
      · rintro (h | h | h)
        · exact Or.inr (List.mem_cons.mpr (Or.inl h))
        · exact Or.inl h
        · exact Or.inr (List.mem_cons.mpr (Or.inr h))
      · rintro (h | h)
        · exact Or.inr (Or.inl h)
        · rcases List.mem_cons.mp h with h | h
          · exact Or.inl h
          · exact Or.inr (Or.inr h)

theorem mem_sortDesc {a : CompRow} : ∀ {l : List CompRow}, a ∈ sortDesc l ↔ a ∈ l := by
  intro l
  induction l with
  | nil => simp [sortDesc]
  | cons x xs ih => rw [sortDesc, mem_insertDesc, ih, List.mem_cons]

theorem length_insertDesc (x : CompRow) :
    ∀ (l : List CompRow), (insertDesc x l).length = l.length + 1 := by
  intro l
  induction l with
  | nil => rfl
  | cons y ys ih =>
    unfold insertDesc
    split
    · rfl
    · simpa using ih

theorem length_sortDesc : ∀ (l : List CompRow), (sortDesc l).length = l.length := by
  intro l
  induction l with
  | nil => rfl
  | cons x xs ih => rw [sortDesc, length_insertDesc, ih]; rfl

theorem pairwise_insertDesc (x : CompRow) (l : List CompRow)
    (hl : l.Pairwise (fun a b => b.predicted_footfall ≤ a.predicted_footfall)) :
    (insertDesc x l).Pairwise (fun a b => b.predicted_footfall ≤ a.predicted_footfall) := by
  induction l with
  | nil => simp [insertDesc]
  | cons y ys ih =>
    rw [List.pairwise_cons] at hl
    unfold insertDesc
    split
    · rename_i hyx
      rw [List.pairwise_cons]
      refine ⟨?_, List.pairwise_cons.mpr hl⟩
      intro z hz
      rcases List.mem_cons.mp hz with hz | hz
      · subst hz; exact hyx
      · exact le_trans (hl.1 z hz) hyx
    · rename_i hyx
      rw [List.pairwise_cons]
      constructor
      · intro z hz
        rcases mem_insertDesc.mp hz with hz | hz
        · subst hz; omega
        · exact hl.1 z hz
      · exact ih hl.2

theorem pairwise_sortDesc (l : List CompRow) :
    (sortDesc l).Pairwise (fun a b => b.predicted_footfall ≤ a.predicted_footfall) := by
  induction l with
  | nil => simp [sortDesc]
  | cons x xs ih => exact pairwise_insertDesc x (sortDesc xs) ih

theorem filter_insertDesc (x : CompRow) (v : ℤ) :
    ∀ (l : List CompRow),
      (insertDesc x l).filter (fun r => r.predicted_footfall = v) =
        (x :: l).filter (fun r => r.predicted_footfall = v) := by
  intro l
  induction l with
  | nil => rfl
  | cons y ys ih =>
    unfold insertDesc
    split
    · rfl
    · rename_i hyx
      by_cases hx : x.predicted_footfall = v
      · have hy : ¬ y.predicted_footfall = v := by omega
        simp only [List.filter_cons] at ih ⊢
        simp [hx, hy] at ih ⊢
        simp [ih]
      · by_cases hy : y.predicted_footfall = v
        · simp only [List.filter_cons] at ih ⊢
          simp [hx, hy] at ih ⊢
          simp [ih]
        · simp only [List.filter_cons] at ih ⊢
          simp [hx, hy] at ih ⊢
          simp [ih]

theorem filter_sortDesc (v : ℤ) :
    ∀ (l : List CompRow),
      (sortDesc l).filter (fun r => r.predicted_footfall = v) =
        l.filter (fun r => r.predicted_footfall = v) := by
  intro l
  induction l with
  | nil => rfl
  | cons x xs ih =>
    rw [sortDesc, filter_insertDesc]
    simp only [List.filter_cons]
    rw [ih]

theorem lookup_cons_self (a : String) (v : Value) (rest : List (String × Value)) :
    List.lookup a ((a, v) :: rest) = some v := by
  simp [List.lookup]

theorem lookup_cons_ne (a k : String) (v : Value) (rest : List (String × Value))
    (h : (a == k) = false) : List.lookup a ((k, v) :: rest) = List.lookup a rest := by
  simp [List.lookup, h]

theorem filter_head_eq_find (p : FRow → Bool) :
    ∀ (l : List FRow), (l.filter p).head? = l.find? p := by
  intro l
  induction l with
  | nil => rfl
  | cons x xs ih =>
    by_cases hx : p x = true
    · rw [List.filter_cons, if_pos hx, List.find?_cons_of_pos _ hx]; rfl
    · rw [List.filter_cons, if_neg hx, List.find?_cons_of_neg _ (by simpa using hx), ih]

/-- C2.  Fast-path training/inference agreement: whenever the persisted
feature table contains a row for `(p, t)`, `_build_features` returns
exactly that materialized row restricted to the training
`feature_names` — same values, same column order, no recomputation
(the general path is never entered). -/
theorem c2_fast_path_exact (hist : List FRow) (featureNames : List String)
    (p : String) (t : SDate) (r : FRow)
    (hfind : hist.find? (fun row => row.pincode = p ∧ row.date = t) = some r) :
    buildFeatures hist featureNames p t =
      some (featureNames.map (fun n => (n, getVal r n))) := by
  have hrmem : r ∈ hist := List.mem_of_find?_eq_some hfind
  have hpred : r.pincode = p ∧ r.date = t := by
    have := List.find?_some hfind
    simpa using this
  have hrfil : r ∈ hist.filter (fun row => row.pincode = p) :=
    List.mem_filter.mpr ⟨hrmem, by simpa using hpred.1⟩
  have hrsorted : r ∈ sortByDate (hist.filter (fun row => row.pincode = p)) :=
    mem_sortByDate.mpr hrfil
  have hlen : ¬ ((sortByDate (hist.filter (fun row => row.pincode = p))).length = 0) := by
    intro h0
    rw [List.length_eq_zero] at h0
    rw [h0] at hrsorted
    cases hrsorted
  have hmax : t.ord ≤ maxOrd ((sortByDate (hist.filter (fun row => row.pincode = p))).map
      (fun row => row.date.ord)) := by
    have hmem : t.ord ∈ (sortByDate (hist.filter (fun row => row.pincode = p))).map
        (fun row => row.date.ord) :=
      List.mem_map.mpr ⟨r, hrsorted, by rw [hpred.2]⟩
    exact le_maxOrd hmem
  have hexist : (hist.filter (fun row => row.pincode = p ∧ row.date = t)).head? = some r := by
    rw [filter_head_eq_find]
    exact hfind
  have hexlen : (hist.filter (fun row => row.pincode = p ∧ row.date = t)).length ≠ 0 := by
    intro h0
    rw [List.length_eq_zero] at h0
    rw [h0] at hexist
    cases hexist
  unfold buildFeatures
  rw [if_neg hlen, if_pos ⟨hmax, hexlen⟩, hexist]
  rfl

/-- The target date and materialized row used by the C2 witness. -/
def c2Date : SDate := ⟨10, 3, 15, 6, 74, "2026-03-15"⟩

/-- A persisted feature row for pincode 110001 on `c2Date`. -/
def c2Row : FRow :=
  ⟨"110001", c2Date,
   [("footfall", Value.num 120), ("month", Value.num 3), ("footfall_lag_7", Value.num 110)]⟩

/-- Witness for C2: with a one-row persisted table containing (110001,
2026-03-15), the built vector is that row restricted to the feature
names, in order. -/
theorem c2_witness :
    buildFeatures [c2Row] ["month", "footfall_lag_7"] "110001" c2Date =
      some [("month", Value.num 3), ("footfall_lag_7", Value.num 110)] := by
  have h := c2_fast_path_exact [c2Row] ["month", "footfall_lag_7"] "110001" c2Date c2Row rfl
  rw [h]
  rfl

/-- C4.  Cold-start determinism: for a pincode whose history strictly
before the target date is empty, `_calculate_lag_features` emits the
fixed documented constants (lag_7 = lag_14 = lag_30 = rolling_mean_* =
100, rolling_std_7 = 10, rolling_max_30 = 150, rolling_min_30 = 50) —
the same on every call and for every such target date — and
`_build_features` still returns a feature vector (no failure) as long
as the pincode has any row in the historical table. -/
theorem c4_cold_start_defaults (ph hist : List FRow) (featureNames : List String)
    (p : String) (t : SDate)
    (h0 : (ph.filter (fun r => r.date.ord < t.ord)).length = 0)
    (hne : (hist.filter (fun r => r.pincode = p)).length ≠ 0) :
    calcLag ph t = lagDefaults ∧
    (∀ t2 : SDate, (ph.filter (fun r => r.date.ord < t2.ord)).length = 0 →
      calcLag ph t2 = lagDefaults) ∧
    (buildFeatures hist featureNames p t).isSome = true := by
  have hdef : ∀ t2 : SDate, (ph.filter (fun r => r.date.ord < t2.ord)).length = 0 →
      calcLag ph t2 = lagDefaults := by
    intro t2 h2
    have hfe : ph.filter (fun r => r.date.ord < t2.ord) = [] := List.length_eq_zero.mp h2
    unfold calcLag
    rw [hfe]
    simp [tailN]
  refine ⟨hdef t h0, hdef, ?_⟩
  have hc1 : ¬ ((sortByDate (hist.filter (fun r => r.pincode = p))).length = 0) := by
    rw [length_sortByDate]
    exact hne
  unfold buildFeatures
  rw [if_neg hc1]
  split
  · rename_i hcond
    obtain ⟨x, hx⟩ : ∃ x,
        (hist.filter (fun r => r.pincode = p ∧ r.date = t)).head? = some x := by
      cases hh : (hist.filter (fun r => r.pincode = p ∧ r.date = t)).head? with
      | none =>
        exfalso
        exact hcond.2 (by rw [List.head?_eq_none_iff.mp hh]; rfl)
      | some x => exact ⟨x, rfl⟩
    rw [hx]
    rfl
  · rfl

/-- The single-row history (one observation at ordinal date 100) and
later-dated target used by the C4 witness: the history strictly before
the target is empty. -/
def c4Hist : List FRow :=
  [⟨"110001", ⟨100, 1, 1, 0, 1, "2026-01-01"⟩, [("footfall", Value.num 50)]⟩]

/-- A target date earlier than every observation of `c4Hist`. -/
def c4Date : SDate := ⟨50, 1, 2, 1, 2, "2025-06-01"⟩

/-- Witness for C4: the defaults are emitted and a vector is produced. -/
theorem c4_witness :
    calcLag c4Hist c4Date = lagDefaults ∧
    (buildFeatures c4Hist ["month"] "110001" c4Date).isSome = true := by
  have h := c4_cold_start_defaults c4Hist c4Hist ["month"] "110001" c4Date
    (by decide) (by decide)
  exact ⟨h.1, h.2.2⟩

/-- C5.  Short-history lag substitution: with a nonempty history
strictly before the target date holding fewer than `k` observations
(`k` ∈ {7, 14, 30}), the reconstructed `footfall_lag_k` equals the
arithmetic mean of ALL available historical footfall values of the
pincode as of the call (the value is present — never null — and it is
positive, hence nonzero, whenever the observed footfalls are). -/
theorem c5_short_history_mean (ph : List FRow) (t : SDate)
    (hne : (ph.filter (fun r => r.date.ord < t.ord)).length ≠ 0) :
    ((ph.filter (fun r => r.date.ord < t.ord)).length < 7 →
      lookupVal (calcLag ph t) "footfall_lag_7" =
        some (Value.num (meanQ ((ph.filter (fun r => r.date.ord < t.ord)).map
          (fun r => getNum r "footfall"))))) ∧
    ((ph.filter (fun r => r.date.ord < t.ord)).length < 14 →
      lookupVal (calcLag ph t) "footfall_lag_14" =
        some (Value.num (meanQ ((ph.filter (fun r => r.date.ord < t.ord)).map
          (fun r => getNum r "footfall"))))) ∧
    ((ph.filter (fun r => r.date.ord < t.ord)).length < 30 →
      lookupVal (calcLag ph t) "footfall_lag_30" =
        some (Value.num (meanQ ((ph.filter (fun r => r.date.ord < t.ord)).map
          (fun r => getNum r "footfall"))))) ∧
    ((∀ q ∈ (ph.filter (fun r => r.date.ord < t.ord)).map (fun r => getNum r "footfall"),
        0 < q) →
      0 < meanQ ((ph.filter (fun r => r.date.ord < t.ord)).map (fun r => getNum r "footfall"))) := by
  refine ⟨?_, ?_, ?_, ?_⟩
  · intro h7
    have htail : tailN 60 (ph.filter (fun r => r.date.ord < t.ord)) =
        ph.filter (fun r => r.date.ord < t.ord) := tailN_eq_self (by omega)
    unfold calcLag
    rw [htail, if_neg hne]
    unfold lookupVal
    rw [lookup_cons_self]
    rw [if_neg (by omega)]
  · intro h14
    have htail : tailN 60 (ph.filter (fun r => r.date.ord < t.ord)) =
        ph.filter (fun r => r.date.ord < t.ord) := tailN_eq_self (by omega)
    unfold calcLag
    rw [htail, if_neg hne]
    unfold lookupVal
    rw [lookup_cons_ne _ _ _ _ (by decide), lookup_cons_self]
    rw [if_neg (by omega)]
  · intro h30
    have htail : tailN 60 (ph.filter (fun r => r.date.ord < t.ord)) =
        ph.filter (fun r => r.date.ord < t.ord) := tailN_eq_self (by omega)
    unfold calcLag
    rw [htail, if_neg hne]
    unfold lookupVal
    rw [lookup_cons_ne _ _ _ _ (by decide), lookup_cons_ne _ _ _ _ (by decide),
      lookup_cons_self]
    rw [if_neg (by omega)]
  · intro hpos
    have hlen : ((ph.filter (fun r => r.date.ord < t.ord)).map
        (fun r => getNum r "footfall")).length ≠ 0 := by
      rw [List.length_map]
      exact hne
    have hnil : (ph.filter (fun r => r.date.ord < t.ord)).map
        (fun r => getNum r "footfall") ≠ [] := by
      intro h
      rw [h] at hlen
      exact hlen rfl
    unfold meanQ
    apply div_pos (List.sum_pos _ hpos hnil)
    have : 0 < ((ph.filter (fun r => r.date.ord < t.ord)).map
        (fun r => getNum r "footfall")).length := Nat.pos_of_ne_zero hlen
    exact_mod_cast this

/-- The 5-observation history (footfalls 10, 20, 30, 40, 50 before
ordinal date 100) used by the C5 witness. -/
def c5Hist : List FRow :=
  [⟨"X", ⟨1, 1, 1, 0, 1, "a"⟩, [("footfall", Value.num 10)]⟩,
   ⟨"X", ⟨2, 1, 2, 1, 2, "b"⟩, [("footfall", Value.num 20)]⟩,
   ⟨"X", ⟨3, 1, 3, 2, 3, "c"⟩, [("footfall", Value.num 30)]⟩,
   ⟨"X", ⟨4, 1, 4, 3, 4, "d"⟩, [("footfall", Value.num 40)]⟩,
   ⟨"X", ⟨5, 1, 5, 4, 5, "e"⟩, [("footfall", Value.num 50)]⟩]

/-- The target date of the C5 witness (later than all of `c5Hist`). -/
def c5Date : SDate := ⟨100, 2, 1, 5, 32, "f"⟩

/-- Witness for C5: with exactly 5 prior observations,
`footfall_lag_7` is the mean of those 5 values. -/
theorem c5_witness :
    lookupVal (calcLag c5Hist c5Date) "footfall_lag_7" =
      some (Value.num (meanQ ((c5Hist.filter (fun r => r.date.ord < c5Date.ord)).map
        (fun r => getNum r "footfall")))) :=
  (c5_short_history_mean c5Hist c5Date (by decide)).1 (by decide)

/-- Republic Day 2026 — a Monday, and an entry of the training holiday
calendar. -/
def jan26 : SDate := ⟨26, 1, 26, 0, 26, "2026-01-26"⟩

/-- C6, counterexample.  The claim is false as stated: `_build_features`
hardcodes `features['is_holiday'] = 0` ("simplified — would need actual
holiday calendar", predict.py line 234), so on 2026-01-26 — a date of
the training calendar — the inference path's `is_holiday` is 0 while
the training rule gives 1: `is_holiday` does NOT equal 1 exactly when
the target date is in the holiday calendar. -/
theorem c6_holiday_divergence :
    jan26.iso ∈ FE.holidays ∧
    FE.is_holiday FE.holidays jan26 = 1 ∧
    PR.is_holiday jan26 = 0 ∧
    ¬ (PR.is_holiday jan26 = 1 ↔ jan26.iso ∈ FE.holidays) := by
  have hmem : jan26.iso ∈ FE.holidays := by decide
  refine ⟨hmem, ?_, rfl, ?_⟩
  · unfold FE.is_holiday
    rw [if_pos hmem]
  · intro h
    have h1 := h.mpr hmem
    unfold PR.is_holiday at h1
    norm_num at h1

/-- C6, amended.  The general inference path computes every temporal,
geographic and interaction feature by the same rule as the training
Feature Engineer — day_of_week, is_weekend, is_monday, month, quarter
(for real months ≥ 1), week_of_month, day_of_month, is_first_week,
day_of_year, the three season flags, the center_type encoding (on the
three canonical spellings), is_urban/is_rural, the district/state label
codes (on any value present in the shared column, via
`encodeCategorical` against `factorize`), and the holiday-free
interactions — EXCEPT the holiday features: `is_holiday`,
`is_day_after_holiday` and hence `weekend_holiday` are the constant 0
on the inference path, regardless of the calendar. -/
theorem c6_nonlag_agreement (t : SDate) (hm : 1 ≤ t.month) (ct : String)
    (hct : ct ∈ ["Rural", "Semi-Urban", "Urban"])
    (l : List String) (v : String) (j : ℕ) (hv : l.get? j = some v) :
    PR.day_of_week t = FE.day_of_week t ∧
    PR.is_weekend t = FE.is_weekend t ∧
    PR.is_monday t = FE.is_monday t ∧
    PR.month t = FE.month t ∧
    PR.quarter t = FE.quarter t ∧
    PR.week_of_month t = FE.week_of_month t ∧
    PR.day_of_month t = FE.day_of_month t ∧
    PR.is_first_week t = FE.is_first_week t ∧
    PR.day_of_year t = FE.day_of_year t ∧
    PR.is_enrollment_season t = FE.is_enrollment_season t ∧
    PR.is_pension_month t = FE.is_pension_month t ∧
    PR.is_festival_season t = FE.is_festival_season t ∧
    FE.center_type_encoded ct = some (PR.center_type_encoded ct) ∧
    PR.is_urban ct = FE.is_urban ct ∧
    PR.is_rural ct = FE.is_rural ct ∧
    (factorize l).get? j = some (encodeCategorical l v) ∧
    PR.rural_pension_interaction ct t = FE.rural_pension_interaction ct t ∧
    PR.urban_enrollment_interaction ct t = FE.urban_enrollment_interaction ct t ∧
    PR.monday_first_week t = FE.monday_first_week t ∧
    PR.is_holiday t = 0 ∧
    PR.is_day_after_holiday t = 0 ∧
    PR.weekend_holiday t = 0 := by
  refine ⟨rfl, rfl, rfl, rfl, ?_, rfl, rfl, rfl, rfl, rfl, rfl, rfl, ?_, rfl, rfl,
    encode_factorize_same l v j hv, rfl, rfl, rfl, rfl, rfl, ?_⟩
  · unfold PR.quarter FE.quarter
    have h : (t.month - 1) / 3 + 1 = (t.month + 2) / 3 := by omega
    exact_mod_cast congrArg (fun n : ℕ => (n : ℚ)) h
  · fin_cases hct <;> decide
  · simp [PR.weekend_holiday, PR.is_holiday]

/-- Witness for C6 (amended): instantiated on 2026-01-26, center type
Urban, and a one-value state column. -/
theorem c6_witness :
    PR.quarter jan26 = FE.quarter jan26 ∧ PR.is_holiday jan26 = 0 ∧
    PR.weekend_holiday jan26 = 0 := by
  obtain ⟨-, -, -, -, h5, -, -, -, -, -, -, -, -, -, -, -, -, -, -, h20, -, h22⟩ :=
    c6_nonlag_agreement jan26 (by decide) "Urban" (by decide) ["S1"] "S1" 0 rfl
  exact ⟨h5, h20, h22⟩

/-- A cell of the raw input table handled by
`_validate_and_fix_columns`: a string or a number.  (Tables whose
footfall column is non-numeric make the Python inference step raise a
`TypeError`; the embedding covers the numeric-footfall domain.) -/
inductive CVal where
  | cstr (s : String)
  | cnum (q : ℚ)
deriving DecidableEq

/-- A raw DataFrame: named columns, in order. -/
abbrev DFrame := List (String × List CVal)

/-- `df.columns`. -/
def colNames (df : DFrame) : List String := df.map Prod.fst

/-- Column values (`[]` when absent; callers guard on presence). -/
def getColVals (df : DFrame) (c : String) : List CVal := (df.lookup c).getD []

/-- `c in df.columns`, as a boolean. -/
def hasColB (df : DFrame) (c : String) : Bool := (colNames df).contains c

/-- `len(df)`, read off the first column (broadcast length for scalar
column assignment). -/
def nRows (df : DFrame) : ℕ := ((df.head?).map (fun c => c.2.length)).getD 0

/-- The required canonical columns (feature_engineering.py line 43). -/
def requiredCols : List String :=
  ["date", "pincode", "footfall", "district", "state", "center_type"]

/-- The synonym table of `_validate_and_fix_columns` (lines 50-92), in
source (insertion) order. -/
def columnMapping : List (String × String) :=
  [("Date", "date"), ("DATE", "date"), ("transaction_date", "date"), ("visit_date", "date"),
   ("PIN", "pincode"), ("pin", "pincode"), ("PIN_code", "pincode"), ("pin_code", "pincode"),
   ("PINCODE", "pincode"), ("pec_id", "pincode"), ("center_id", "pincode"),
   ("Footfall", "footfall"), ("FOOTFALL", "footfall"), ("count", "footfall"),
   ("visitors", "footfall"), ("footfall_count", "footfall"), ("daily_count", "footfall"),
   ("transactions", "footfall"), ("enrollments", "footfall"),
   ("District", "district"), ("DISTRICT", "district"), ("dist", "district"),
   ("State", "state"), ("STATE", "state"),
   ("center_type", "center_type"), ("Center_Type", "center_type"),
   ("CENTER_TYPE", "center_type"), ("type", "center_type"),
   ("location_type", "center_type"), ("pec_type", "center_type")]

/-- `df.rename(columns={old: new})`. -/
def renameCol (df : DFrame) (old new : String) : DFrame :=
  df.map (fun col => if col.1 = old then (new, col.2) else col)

/-- `[col for col in required_cols if col not in df.columns]` (lines 44
and 163). -/
def finalMissing (df : DFrame) : List String :=
  requiredCols.filter (fun c => ¬ c ∈ colNames df)

/-- Step 1 (lines 42-99): when some required column is missing, apply
each synonym rename whose source column exists and whose target does
not. -/
def step1 (df : DFrame) : DFrame :=
  match finalMissing df with
  | [] => df
  | _ :: _ => columnMapping.foldl
    (fun d m => if m.1 ∈ colNames d ∧ m.2 ∉ colNames d then renameCol d m.1 m.2 else d) df

/-- The footfall-threshold heuristic of lines 108-110
(`'Urban' if x > 150 else ('Rural' if x < 100 else 'Semi-Urban')`). -/
def inferCenterType (v : CVal) : CVal :=
  match v with
  | CVal.cnum x =>
    if 150 < x then CVal.cstr "Urban"
    else if x < 100 then CVal.cstr "Rural"
    else CVal.cstr "Semi-Urban"
  | CVal.cstr _ => CVal.cstr "Semi-Urban"

/-- Step 2a (lines 104-117): a missing `center_type` is inferred from
footfall when possible, else defaulted to `'Urban'`. -/
def step2a (df : DFrame) : DFrame :=
  if hasColB df "center_type" then df
  else if hasColB df "footfall" then
    df ++ [("center_type", (getColVals df "footfall").map inferCenterType)]
  else df ++ [("center_type", List.replicate (nRows df) (CVal.cstr "Urban"))]

/-- Step 2b (lines 119-122): default a missing `district`. -/
def step2b (df : DFrame) : DFrame :=
  if hasColB df "district" then df
  else df ++ [("district", List.replicate (nRows df) (CVal.cstr "Unknown District"))]

/-- Step 2c (lines 124-127): default a missing `state`. -/
def step2c (df : DFrame) : DFrame :=
  if hasColB df "state" then df
  else df ++ [("state", List.replicate (nRows df) (CVal.cstr "Unknown State"))]

/-- `astype(str)` on a cell. -/
def valueToStr (v : CVal) : CVal :=
  match v with
  | CVal.cstr s => CVal.cstr s
  | CVal.cnum q => CVal.cstr (toString q)

/-- Map a function over the cells of one named column. -/
def mapCol (df : DFrame) (c : String) (f : CVal → CVal) : DFrame :=
  df.map (fun col => if col.1 = c then (col.1, col.2.map f) else col)

/-- Step 3 (lines 129-131): coerce `pincode` to strings. -/
def step3 (df : DFrame) : DFrame :=
  if hasColB df "pincode" then mapCol df "pincode" valueToStr else df

/-- The spelling-variant table of lines 136-149. -/
def ctReplace : List (String × String) :=
  [("urban", "Urban"), ("URBAN", "Urban"), ("U", "Urban"),
   ("rural", "Rural"), ("RURAL", "Rural"), ("R", "Rural"),
   ("semi-urban", "Semi-Urban"), ("semi urban", "Semi-Urban"),
   ("SEMI-URBAN", "Semi-Urban"), ("SEMI URBAN", "Semi-Urban"),
   ("S", "Semi-Urban"), ("semiurban", "Semi-Urban")]

/-- `Series.replace(center_type_mapping)` on one cell. -/
def replaceCT (v : CVal) : CVal :=
  match v with
  | CVal.cstr s => CVal.cstr ((ctReplace.lookup s).getD s)
  | x => x

/-- The canonical center types (line 154). -/
def validTypes : List String := ["Urban", "Rural", "Semi-Urban"]

/-- Step 4 on one cell (lines 133-160): replace spelling variants, then
send anything still unrecognized to `'Urban'`. -/
def fixCT (v : CVal) : CVal :=
  match replaceCT v with
  | CVal.cstr s => if s ∈ validTypes then CVal.cstr s else CVal.cstr "Urban"
  | _ => CVal.cstr "Urban"

/-- Step 4 (lines 133-160): canonicalize the `center_type` column. -/
def step4 (df : DFrame) : DFrame :=
  if hasColB df "center_type" then mapCol df "center_type" fixCT else df

/-- The whole fixed-up table, before the final validation (lines 162-167). -/
def afterSteps (df : DFrame) : DFrame := step4 (step3 (step2c (step2b (step2a (step1 df)))))

/-- `FeatureEngineer._validate_and_fix_columns` (lines 25-176): the
fixed-up table when every required column is present after all fallback
steps, otherwise the `ValueError` carrying the still-missing columns. -/
def validateFix (df : DFrame) : Except (List String) DFrame :=
  match finalMissing (afterSteps df) with
  | [] => Except.ok (afterSteps df)
  | ms => Except.error ms

theorem valueToStr_idem (v : CVal) : valueToStr (valueToStr v) = valueToStr v := by
  cases v <;> rfl

theorem fixCT_fixed (s : String) (h : s ∈ validTypes) : fixCT (CVal.cstr s) = CVal.cstr s := by
  fin_cases h <;> decide

theorem fixCT_valid (v : CVal) : ∃ s, fixCT v = CVal.cstr s ∧ s ∈ validTypes := by
  cases v with
  | cnum q => exact ⟨"Urban", rfl, by decide⟩
  | cstr s =>
    unfold fixCT replaceCT
    by_cases h : (ctReplace.lookup s).getD s ∈ validTypes
    · exact ⟨(ctReplace.lookup s).getD s, by simp [h], h⟩
    · exact ⟨"Urban", by simp [h], by decide⟩

theorem fixCT_idem (v : CVal) : fixCT (fixCT v) = fixCT v := by
  obtain ⟨s, hs, hv⟩ := fixCT_valid v
  rw [hs, fixCT_fixed s hv]

theorem colNames_mapCol (df : DFrame) (c : String) (f : CVal → CVal) :
    colNames (mapCol df c f) = colNames df := by
  unfold colNames mapCol
  rw [List.map_map]
  apply List.map_congr_left
  intro col _
  by_cases h : col.1 = c <;> simp [h]

theorem hasColB_iff (df : DFrame) (c : String) : hasColB df c = true ↔ c ∈ colNames df := by
  unfold hasColB
  exact List.elem_iff

theorem colNames_step3 (df : DFrame) : colNames (step3 df) = colNames df := by
  unfold step3
  cases h : hasColB df "pincode"
  · simp [h]
  · simp [h, colNames_mapCol]

theorem colNames_step4 (df : DFrame) : colNames (step4 df) = colNames df := by
  unfold step4
  cases h : hasColB df "center_type"
  · simp [h]
  · simp [h, colNames_mapCol]

theorem map_map_idem (f : CVal → CVal) (hf : ∀ v, f (f v) = f v) (vs : List CVal) :
    (vs.map f).map f = vs.map f := by
  rw [List.map_map]
  apply List.map_congr_left
  intro v _
  exact hf v

theorem mapCol_mapCol_same (df : DFrame) (c : String) (f : CVal → CVal)
    (hf : ∀ v, f (f v) = f v) : mapCol (mapCol df c f) c f = mapCol df c f := by
  unfold mapCol
  rw [List.map_map]
  apply List.map_congr_left
  rintro ⟨n, vs⟩ -
  by_cases h : n = c
  · subst h
    simp [map_map_idem f hf]
  · simp [h]

theorem mapCol_comm (df : DFrame) (c1 c2 : String) (f g : CVal → CVal) (h : c1 ≠ c2) :
    mapCol (mapCol df c1 f) c2 g = mapCol (mapCol df c2 g) c1 f := by
  unfold mapCol
  rw [List.map_map, List.map_map]
  apply List.map_congr_left
  rintro ⟨n, vs⟩ -
  by_cases h1 : n = c1
  · subst h1
    simp [h, Ne.symm h]
  · by_cases h2 : n = c2
    · subst h2
      simp [h, Ne.symm h, h1]
    · simp [h1, h2]

/-- C7.  Column Reconciler idempotence: on any input on which
`_validate_and_fix_columns` succeeds, running it again on its own
output returns that output unchanged — the second run performs no
renames (step 1 is skipped because nothing is missing), no
`center_type` inference and no district/state defaulting (steps 2a-2c
are skipped), and the pincode string-coercion and `center_type`
re-canonicalization are no-ops on already-canonical cells. -/
theorem finalMissing_eq_nil (df : DFrame) :
    finalMissing df = [] ↔ ∀ c ∈ requiredCols, c ∈ colNames df := by
  unfold finalMissing
  rw [List.filter_eq_nil]
  constructor
  · intro h c hc
    have := h c hc
    simpa using this
  · intro h c hc
    simpa using h c hc

theorem c7_reconciler_idempotent (df out : DFrame)
    (h : validateFix df = Except.ok out) : validateFix out = Except.ok out := by
  unfold validateFix at h
  cases hm : finalMissing (afterSteps df) with
  | cons a as =>
    rw [hm] at h
    simp at h
  | nil =>
    rw [hm] at h
    have h2 : afterSteps df = out := by injection h
    subst h2
    rw [show afterSteps df = step4 (step3 (step2c (step2b (step2a (step1 df))))) from rfl]
      at hm ⊢
    generalize step2c (step2b (step2a (step1 df))) = X at hm ⊢
    have hall : ∀ c ∈ requiredCols, c ∈ colNames (step4 (step3 X)) :=
      (finalMissing_eq_nil _).mp hm
    have hnames : colNames (step4 (step3 X)) = colNames X := by
      rw [colNames_step4, colNames_step3]
    have hpinX : hasColB X "pincode" = true := by
      rw [hasColB_iff, ← hnames]
      exact hall "pincode" (by decide)
    have hctX : hasColB X "center_type" = true := by
      rw [hasColB_iff, ← hnames]
      exact hall "center_type" (by decide)
    have hshape : step4 (step3 X) = mapCol (mapCol X "pincode" valueToStr)
        "center_type" fixCT := by
      unfold step3
      rw [if_pos hpinX]
      unfold step4
      rw [if_pos (show hasColB (mapCol X "pincode" valueToStr) "center_type" = true by
        rw [hasColB_iff, colNames_mapCol, ← hasColB_iff]
        exact hctX)]
    rw [hshape] at hall ⊢
    have hallB : ∀ c ∈ requiredCols,
        hasColB (mapCol (mapCol X "pincode" valueToStr) "center_type" fixCT) c = true := by
      intro c hc
      rw [hasColB_iff]
      exact hall c hc
    have hmiss : finalMissing (mapCol (mapCol X "pincode" valueToStr) "center_type" fixCT)
        = [] := (finalMissing_eq_nil _).mpr hall
    have h1 : step1 (mapCol (mapCol X "pincode" valueToStr) "center_type" fixCT) =
        mapCol (mapCol X "pincode" valueToStr) "center_type" fixCT := by
      unfold step1
      rw [hmiss]
    have h2a : step2a (mapCol (mapCol X "pincode" valueToStr) "center_type" fixCT) =
        mapCol (mapCol X "pincode" valueToStr) "center_type" fixCT := by
      unfold step2a
      rw [if_pos (hallB "center_type" (by decide))]
    have h2b : step2b (mapCol (mapCol X "pincode" valueToStr) "center_type" fixCT) =
        mapCol (mapCol X "pincode" valueToStr) "center_type" fixCT := by
      unfold step2b
      rw [if_pos (hallB "district" (by decide))]
    have h2c : step2c (mapCol (mapCol X "pincode" valueToStr) "center_type" fixCT) =
        mapCol (mapCol X "pincode" valueToStr) "center_type" fixCT := by
      unfold step2c
      rw [if_pos (hallB "state" (by decide))]
    have h3 : step3 (mapCol (mapCol X "pincode" valueToStr) "center_type" fixCT) =
        mapCol (mapCol X "pincode" valueToStr) "center_type" fixCT := by
      unfold step3
      rw [if_pos (hallB "pincode" (by decide))]
      rw [mapCol_comm _ "center_type" "pincode" fixCT valueToStr (by decide)]
      rw [mapCol_mapCol_same _ "pincode" valueToStr valueToStr_idem]
    have h4 : step4 (mapCol (mapCol X "pincode" valueToStr) "center_type" fixCT) =
        mapCol (mapCol X "pincode" valueToStr) "center_type" fixCT := by
      unfold step4
      rw [if_pos (hallB "center_type" (by decide))]
      rw [mapCol_mapCol_same _ "center_type" fixCT fixCT_idem]
    have hAS : afterSteps (mapCol (mapCol X "pincode" valueToStr) "center_type" fixCT) =
        mapCol (mapCol X "pincode" valueToStr) "center_type" fixCT := by
      unfold afterSteps
      rw [h1, h2a, h2b, h2c, h3, h4]
    unfold validateFix
    rw [hAS, hmiss]

/-- A canonical one-row table: every required column present, pincode
already a string, center_type already canonical. -/
def dfCanon : DFrame :=
  [("date", [CVal.cstr "2025-01-01"]), ("pincode", [CVal.cstr "110001"]),
   ("footfall", [CVal.cnum 120]), ("district", [CVal.cstr "Central"]),
   ("state", [CVal.cstr "Delhi"]), ("center_type", [CVal.cstr "Urban"])]

/-- Witness for C7: the reconciler succeeds on `dfCanon` (returning it
unchanged), and re-running on the output is a no-op. -/
theorem c7_witness : validateFix dfCanon = Except.ok dfCanon :=
  c7_reconciler_idempotent dfCanon dfCanon (by rfl)

/-- Whether an `Except` result is a success. -/
def isOkE : Except ε α → Bool
  | Except.ok _ => true
  | Except.error _ => false

theorem finalMissing_ne_nil (df : DFrame) :
    finalMissing df ≠ [] ↔ ∃ c ∈ requiredCols, c ∉ colNames df := by
  rw [Ne, finalMissing_eq_nil]
  push_neg
  rfl

/-- C8.  Schema-error behavior: `_validate_and_fix_columns` raises if
and only if, after the synonym renames and the fallback
inference/defaulting steps, at least one required canonical column
({date, pincode, footfall, district, state, center_type}) is still
absent; on the error no table is returned (the `Except` carries only
the missing-column list), and on success the returned table contains
every required column. -/
theorem c8_schema_error (df : DFrame) :
    (isOkE (validateFix df) = false ↔ ∃ c ∈ requiredCols, c ∉ colNames (afterSteps df)) ∧
    (∀ out, validateFix df = Except.ok out → ∀ c ∈ requiredCols, c ∈ colNames out) := by
  have hkey : isOkE (validateFix df) = false ↔ finalMissing (afterSteps df) ≠ [] := by
    unfold validateFix
    cases hm : finalMissing (afterSteps df) with
    | nil => simp [isOkE]
    | cons a as => simp [isOkE]
  constructor
  · rw [hkey]
    exact finalMissing_ne_nil _
  · intro out hout c hc
    unfold validateFix at hout
    cases hm : finalMissing (afterSteps df) with
    | nil =>
      rw [hm] at hout
      have h2 : afterSteps df = out := by injection hout
      rw [← h2]
      exact (finalMissing_eq_nil _).mp hm c hc
    | cons a as =>
      rw [hm] at hout
      simp at hout

/-- An input table irrecoverably missing its footfall column. -/
def dfBad : DFrame :=
  [("date", [CVal.cstr "2025-01-01"]), ("pincode", [CVal.cstr "110001"])]

set_option maxRecDepth 8192 in
/-- Witness for C8: `footfall` cannot be renamed into existence or
inferred, so the reconciler errors on `dfBad`. -/
theorem c8_witness : isOkE (validateFix dfBad) = false :=
  (c8_schema_error dfBad).1.mpr ⟨"footfall", by decide, by decide⟩

theorem buildFeatures_isSome (hist : List FRow) (fn : List String) (p : String) (t : SDate)
    (hne : ¬ ((sortByDate (hist.filter (fun r => r.pincode = p))).length = 0)) :
    (buildFeatures hist fn p t).isSome = true := by
  unfold buildFeatures
  rw [if_neg hne]
  split
  · rename_i hcond
    obtain ⟨x, hx⟩ : ∃ x,
        (hist.filter (fun r => r.pincode = p ∧ r.date = t)).head? = some x := by
      cases hh : (hist.filter (fun r => r.pincode = p ∧ r.date = t)).head? with
      | none => exact absurd (by rw [List.head?_eq_none_iff.mp hh]; rfl) hcond.2
      | some x => exact ⟨x, rfl⟩
    rw [hx]
    rfl
  · rfl

theorem predictSingleDay_isSome_iff (model : List (String × Value) → ℚ) (hist : List FRow)
    (fn : List String) (p : String) (t : SDate) :
    (predictSingleDay model hist fn p t).isSome = (pincodeInfo hist p).isSome := by
  unfold predictSingleDay
  cases hinfo : pincodeInfo hist p with
  | none => rfl
  | some r =>
    have hrp : r.pincode = p := by
      have := List.find?_some hinfo
      simpa using this
    have hrmem : r ∈ hist := List.mem_of_find?_eq_some hinfo
    have hne : ¬ ((sortByDate (hist.filter (fun x => x.pincode = p))).length = 0) := by
      intro h0
      have hmem : r ∈ sortByDate (hist.filter (fun x => x.pincode = p)) :=
        mem_sortByDate.mpr (List.mem_filter.mpr ⟨hrmem, by simpa using hrp⟩)
      rw [List.length_eq_zero.mp h0] at hmem
      cases hmem
    obtain ⟨w, hw⟩ := Option.isSome_iff_exists.mp (buildFeatures_isSome hist fn p t hne)
    rw [hw]
    rfl

theorem predictSingleDay_nonneg (model : List (String × Value) → ℚ) (hist : List FRow)
    (fn : List String) (p : String) (t : SDate) (v : ℤ)
    (h : predictSingleDay model hist fn p t = some v) : 0 ≤ v := by
  unfold predictSingleDay at h
  cases hinfo : pincodeInfo hist p with
  | none => rw [hinfo] at h; cases h
  | some r =>
    rw [hinfo] at h
    rw [Option.map_eq_some'] at h
    obtain ⟨a, _, hv⟩ := h
    rw [← hv]
    exact le_max_left 0 _

theorem compEntry_isSome (model : List (String × Value) → ℚ) (hist : List FRow)
    (fn : List String) (t : SDate) (p : String) :
    (compEntry model hist fn t p).isSome = (pincodeInfo hist p).isSome := by
  unfold compEntry
  cases hinfo : pincodeInfo hist p with
  | none =>
    cases hps : predictSingleDay model hist fn p t <;> rfl
  | some r =>
    have hps : (predictSingleDay model hist fn p t).isSome = true := by
      rw [predictSingleDay_isSome_iff, hinfo]
      rfl
    obtain ⟨v, hv⟩ := Option.isSome_iff_exists.mp hps
    rw [hv]
    rfl

theorem compEntry_nonneg (model : List (String × Value) → ℚ) (hist : List FRow)
    (fn : List String) (t : SDate) (p : String) (r : CompRow)
    (h : compEntry model hist fn t p = some r) : 0 ≤ r.predicted_footfall := by
  unfold compEntry at h
  cases hps : predictSingleDay model hist fn p t with
  | none =>
    rw [hps] at h
    cases pincodeInfo hist p <;> cases h
  | some v =>
    cases hinfo : pincodeInfo hist p with
    | none => rw [hps, hinfo] at h; cases h
    | some r0 =>
      rw [hps, hinfo] at h
      injection h with h2
      rw [← h2]
      exact predictSingleDay_nonneg model hist fn p t v hps

theorem length_filterMap_eq_countP (f : α → Option β) :
    ∀ (l : List α), (l.filterMap f).length = l.countP (fun a => (f a).isSome) := by
  intro l
  induction l with
  | nil => rfl
  | cons x xs ih =>
    rw [List.filterMap_cons, List.countP_cons]
    cases hx : f x with
    | none => simp [hx, ih]
    | some b => simp [hx, ih]

/-- A one-pincode historical table for the C9 theorems. -/
def c9Hist : List FRow :=
  [⟨"110001", ⟨1, 1, 1, 3, 1, "2026-01-01"⟩,
    [("footfall", Value.num 100), ("district", Value.str "Central"),
     ("state", Value.str "Delhi"), ("center_type", Value.str "Urban")]⟩]

/-- The comparison date of the C9 theorems. -/
def c9Date : SDate := ⟨2, 1, 2, 4, 2, "2026-01-02"⟩

/-- C9, counterexample.  The claim is false as stated: unknown pincodes
are NOT merely skipped.  When every input pincode is unknown, `results`
is empty, `pd.DataFrame(results)` has no columns, and
`sort_values('predicted_footfall')` raises `KeyError` instead of
returning zero rows — the call is fatal, not a skip. -/
theorem c9_all_unknown_fatal :
    comparePincodes (fun _ => 0) c9Hist [] ["999999"] c9Date =
      Except.error "KeyError: predicted_footfall" := by
  rfl

/-- C9, amended.  Provided at least one input pincode exists in the
historical store, `compare_pincodes` succeeds and returns exactly one
row per input pincode that exists in the store (unknown ones are
skipped), every `predicted_footfall` is a non-negative integer (each is
`max(0, round(model(...)))`), and the rows are sorted descending by
`predicted_footfall` with ties in stable input order (rows of any given
predicted value appear exactly in their `results`-list order); when no
input pincode exists in the store the call raises `KeyError` instead. -/
theorem c9_comparison (model : List (String × Value) → ℚ) (hist : List FRow)
    (fn : List String) (pincodes : List String) (t : SDate)
    (hex : pincodes.any (fun p => (pincodeInfo hist p).isSome) = true) :
    ∃ rows, comparePincodes model hist fn pincodes t = Except.ok rows ∧
      rows.length = pincodes.countP (fun p => (pincodeInfo hist p).isSome) ∧
      (∀ r ∈ rows, 0 ≤ r.predicted_footfall) ∧
      rows.Pairwise (fun a b => b.predicted_footfall ≤ a.predicted_footfall) ∧
      (∀ v : ℤ, rows.filter (fun r => r.predicted_footfall = v) =
        (compResults model hist fn pincodes t).filter (fun r => r.predicted_footfall = v)) := by
  have hlen : (compResults model hist fn pincodes t).length =
      pincodes.countP (fun p => (pincodeInfo hist p).isSome) := by
    unfold compResults
    rw [length_filterMap_eq_countP]
    apply List.countP_congr
    intro p _
    simp only [compEntry_isSome]
  have hpos : ¬ ((compResults model hist fn pincodes t).length = 0) := by
    rw [hlen]
    obtain ⟨p, hp, hsome⟩ := List.any_eq_true.mp hex
    have hgt : 0 < pincodes.countP (fun q => (pincodeInfo hist q).isSome) := by
      rw [List.countP_pos]
      exact ⟨p, hp, hsome⟩
    omega
  refine ⟨sortDesc (compResults model hist fn pincodes t), ?_, ?_, ?_, ?_, ?_⟩
  · unfold comparePincodes
    rw [if_neg hpos]
  · rw [length_sortDesc, hlen]
  · intro r hr
    have hmem : r ∈ compResults model hist fn pincodes t := mem_sortDesc.mp hr
    unfold compResults at hmem
    obtain ⟨p, _, hp⟩ := List.mem_filterMap.mp hmem
    exact compEntry_nonneg model hist fn t p r hp
  · exact pairwise_sortDesc _
  · intro v
    exact filter_sortDesc v _

/-- Witness for C9 (amended): one known pincode, constant regressor. -/
theorem c9_witness :
    ∃ rows, comparePincodes (fun _ => 0) c9Hist [] ["110001"] c9Date = Except.ok rows ∧
      rows.length = (["110001"].countP (fun p => (pincodeInfo c9Hist p).isSome)) := by
  obtain ⟨rows, h1, h2, -, -, -⟩ :=
    c9_comparison (fun _ => 0) c9Hist [] ["110001"] c9Date (by decide)
  exact ⟨rows, h1, h2⟩

/-- The exclusion list of `PECModelTrainer._prepare_data`
(train_model.py lines 88-93): the two change columns are excluded
("Can cause issues with NaN"). -/
def excludeCols : List String :=
  ["date", "footfall", "pincode", "district", "state", "center_type", "day_name",
   "footfall_change_7d", "footfall_change_30d"]

/-- `feature_cols = [col for col in df.columns if col not in exclude_cols]`
(train_model.py line 96): the training feature set, which becomes the
persisted `feature_names`. -/
def prepareFeatureCols (cols : List String) : List String :=
  cols.filter (fun c => ¬ c ∈ excludeCols)

/-- The column set of the engineered feature table, in creation order
(raw canonical columns, then the temporal, geographic, lag and
interaction features of `engineer_features`). -/
def engineeredCols : List String :=
  ["date", "pincode", "footfall", "district", "state", "center_type",
   "day_of_week", "day_name", "is_weekend", "is_monday", "month", "quarter",
   "week_of_month", "day_of_month", "is_first_week", "is_holiday",
   "is_day_after_holiday", "is_enrollment_season", "is_pension_month",
   "is_festival_season", "day_of_year", "center_type_encoded", "is_urban",
   "is_rural", "state_encoded", "district_encoded", "pincode_category",
   "footfall_lag_7", "footfall_lag_14", "footfall_lag_30",
   "footfall_rolling_mean_7", "footfall_rolling_mean_14", "footfall_rolling_mean_30",
   "footfall_rolling_std_7", "footfall_change_7d", "footfall_change_30d",
   "footfall_rolling_max_30", "footfall_rolling_min_30",
   "rural_pension_interaction", "urban_enrollment_interaction",
   "monday_first_week", "weekend_holiday", "lag_ratio_7_to_30"]

/-- C10, counterexample.  The claim is false as stated: it asserts that
`footfall_change_7d` and `footfall_change_30d` are "included in the
regressor's training feature set", but `_prepare_data` explicitly
excludes both from `feature_cols` — on the actual engineered column
set, which contains them, neither survives into the training feature
list (so neither can appear, even zero-filled, in the inference
vector, which is indexed by `feature_names`). -/
theorem c10_change_cols_excluded :
    "footfall_change_7d" ∈ engineeredCols ∧
    "footfall_change_30d" ∈ engineeredCols ∧
    "footfall_change_7d" ∉ prepareFeatureCols engineeredCols ∧
    "footfall_change_30d" ∉ prepareFeatureCols engineeredCols := by
  decide

theorem lookup_map_none (fn : List String) (f : String → Value) (n : String)
    (h : n ∉ fn) : (fn.map (fun m => (m, f m))).lookup n = none := by
  induction fn with
  | nil => rfl
  | cons m ms ih =>
    have hnm : n ≠ m := fun he => h (he ▸ List.mem_cons_self m ms)
    rw [List.map_cons, lookup_cons_ne n m (f m) _ (beq_eq_false_iff_ne.mpr hnm)]
    exact ih (fun hm => h (List.mem_cons.mpr (Or.inr hm)))

theorem buildFeatures_lookup_none (hist : List FRow) (fn : List String) (p : String)
    (t : SDate) (v : List (String × Value)) (n : String) (hn : n ∉ fn)
    (h : buildFeatures hist fn p t = some v) : lookupVal v n = none := by
  unfold buildFeatures at h
  split at h
  · cases h
  · split at h
    · rw [Option.map_eq_some'] at h
      obtain ⟨r, _, hv⟩ := h
      rw [← hv]
      exact lookup_map_none fn _ n hn
    · injection h with h2
      rw [← h2]
      exact lookup_map_none fn _ n hn

/-- C10, amended.  The two change features diverge between the paths
only in that they exist in neither the training matrix nor the
inference vector: `_prepare_data` excludes `footfall_change_7d` and
`footfall_change_30d` from the training feature set built over any
column set, hence any inference vector (indexed by those
`feature_names`) contains no such entry at all (nothing is zero-filled
for them); in the persisted engineered table the columns themselves do
satisfy `footfall_change_kd = footfall - footfall_lag_k`, computed from
the row's own observed footfall. -/
theorem c10_change_features (cols : List String) :
    "footfall_change_7d" ∉ prepareFeatureCols cols ∧
    "footfall_change_30d" ∉ prepareFeatureCols cols ∧
    (∀ hist p t v, buildFeatures hist (prepareFeatureCols cols) p t = some v →
      lookupVal v "footfall_change_7d" = none ∧ lookupVal v "footfall_change_30d" = none) ∧
    (∀ (T : List Row) (j : ℕ) (x : ℚ), lagAt 7 T j = some x →
      changeAt 7 T j = some (ffAt T j - x)) ∧
    (∀ (T : List Row) (j : ℕ) (x : ℚ), lagAt 30 T j = some x →
      changeAt 30 T j = some (ffAt T j - x)) := by
  have hnotin : ∀ (cols0 : List String) (c : String), c ∈ excludeCols →
      c ∉ prepareFeatureCols cols0 := by
    intro cols0 c hc hmem
    have h2 := (List.mem_filter.mp hmem).2
    have h3 : ¬ c ∈ excludeCols := by simpa using h2
    exact h3 hc
  refine ⟨hnotin cols _ (by decide), hnotin cols _ (by decide), ?_, ?_, ?_⟩
  · intro hist p t v hv
    exact ⟨buildFeatures_lookup_none hist _ p t v _ (hnotin cols _ (by decide)) hv,
      buildFeatures_lookup_none hist _ p t v _ (hnotin cols _ (by decide)) hv⟩
  · intro T j x h
    unfold changeAt
    rw [h]
    rfl
  · intro T j x h
    unfold changeAt
    rw [h]
    rfl

/-- Witness for C10 (amended): on the real engineered column set and
the 31-day sample table, `footfall_change_7d` at the surviving row is
the current footfall minus `footfall_lag_7`. -/
theorem c10_witness :
    changeAt 7 sampleTable 30 = some (ffAt sampleTable 30 - 100) :=
  (c10_change_features engineeredCols).2.2.2.1 sampleTable 30 100 (by decide)
